import Mathlib

/- Verification of the interest-model core (src/transforms.py, src/model.py,
   src/calibrate.py, and the year-aggregation helper of src/transforms.py).

   Embedding conventions:
   * machine floats are modelled as real numbers (exact arithmetic); the year
     aggregator, which only adds and groups values, is modelled over ℚ so that
     its statements are decidable;
   * a pandas Series is a list of values aligned positionally with the frame
     index (the index is duplicate-free per the data model, so label lookup and
     positional lookup agree);
   * a DataFrame column that may be absent is an `Option (List ℝ)`; accessing a
     missing column (Python KeyError) is `Except.error`;
   * Python `raise` is `Except.error`; dictionary `.get(key, default)` is
     `Option.getD`;
   * `numpy.linalg.lstsq` is an external library routine, not repository code:
     it is abstracted as an explicit function parameter `ols` of the calibrator
     (the calibrator's own logic — design-matrix build, orthogonalization and
     its reversal, coefficient mapping, grid fold — is embedded from source). -/

namespace InterestModel

/-! ### transforms.py -/

/-- Success value of `transforms.half_life_to_alpha`:
    `1.0 - 0.5 ** (1.0 / float(half_life_months))`. -/
noncomputable def alphaOf (hl : ℝ) : ℝ := 1 - (1 / 2 : ℝ) ^ (1 / hl)

/-- `transforms.half_life_to_alpha`: raises when `half_life_months <= 0`. -/
noncomputable def half_life_to_alpha (hl : ℝ) : Except String ℝ :=
  if hl ≤ 0 then .error "half_life_months must be positive" else .ok (alphaOf hl)

/-- The sequential EMA recursion of `transforms.ema` after the first element:
    carries `out[i-1]` and emits `alpha*s[i] + (1-alpha)*out[i-1]`. -/
noncomputable def emaRun (a : ℝ) : ℝ → List ℝ → List ℝ
  | _, [] => []
  | prev, y :: ys => (a * y + (1 - a) * prev) :: emaRun a (a * y + (1 - a) * prev) ys

/-- The value computed by `transforms.ema` on a valid alpha: `out[0] = s[0]`,
    then the recursion `emaRun`; an empty series is returned unchanged. -/
noncomputable def emaFull (a : ℝ) : List ℝ → List ℝ
  | [] => []
  | x :: xs => x :: emaRun a x xs

/-- `transforms.ema`: raises unless `0 < alpha <= 1`. -/
noncomputable def ema (s : List ℝ) (a : ℝ) : Except String (List ℝ) :=
  if 0 < a ∧ a ≤ 1 then .ok (emaFull a s) else .error "alpha must be in (0, 1]"

/-- Pointwise ternary zip used to embed the NaN-free weighted blend of aligned
    series in `transforms.weighted_curve`. -/
def zipWith3R (f : ℝ → ℝ → ℝ → ℝ) : List ℝ → List ℝ → List ℝ → List ℝ
  | a :: as, b :: bs, c :: cs => f a b c :: zipWith3R f as bs cs
  | _, _, _ => []

/-- `transforms.weighted_curve`: raises unless `weights` has exactly three
    entries; otherwise the per-timestamp blend `w0*r2y + w1*r5y + w2*r10y`
    (all call sites pass series on one common index, so the index-union and
    reindex steps of the source are the identity here). -/
noncomputable def weighted_curve (r2y r5y r10y : List ℝ) (w : List ℝ) :
    Except String (List ℝ) :=
  match w with
  | [w1, w2, w3] => .ok (zipWith3R (fun a b c => w1 * a + w2 * b + w3 * c) r2y r5y r10y)
  | _ => .error "weights must be length-3 for r2y,r5y,r10y"

/-! ### Data model (MacroSeries frame, parameter mapping, configuration) -/

/-- A MacroSeries DataFrame: the month-end index (timestamps abstracted as
    integers) plus the columns the core reads.  A column can be absent
    (`none`), in which case accessing it raises KeyError in the source. -/
structure MacroFrame where
  idx : List ℤ
  r3m : Option (List ℝ)
  r2y : Option (List ℝ)
  r5y : Option (List ℝ)
  r10y : Option (List ℝ)
  pce_infl_m : Option (List ℝ)
  primary_deficit_pct_gdp : Option (List ℝ)
  nominal_gdp : Option (List ℝ)

/-- Frame well-formedness from the data model: duplicate-free index and every
    present column aligned with the index. -/
def MacroFrame.WF (m : MacroFrame) : Prop :=
  m.idx.Nodup ∧
  (∀ l, m.r3m = some l → l.length = m.idx.length) ∧
  (∀ l, m.r2y = some l → l.length = m.idx.length) ∧
  (∀ l, m.r5y = some l → l.length = m.idx.length) ∧
  (∀ l, m.r10y = some l → l.length = m.idx.length) ∧
  (∀ l, m.pce_infl_m = some l → l.length = m.idx.length) ∧
  (∀ l, m.primary_deficit_pct_gdp = some l → l.length = m.idx.length) ∧
  (∀ l, m.nominal_gdp = some l → l.length = m.idx.length)

/-- The `params` dictionary passed to `model.forecast_monthly`: every key may
    be absent (`params.get(key, default)` in the source). -/
structure ParamsIn where
  hl_SHORT : Option ℝ
  hl_NB : Option ℝ
  share_SHORT : Option ℝ
  share_NB : Option ℝ
  share_TIPS : Option ℝ
  other_bps : Option ℝ

/-- The configuration keys the core reads:
    `config.get('model',{}).get('debt_public_initial',{}).get('value', 0.0)`
    and `config.get('model',{}).get('r_tips_coupon', 0.0)`. -/
structure Config where
  debt_public_initial_value : Option ℝ
  r_tips_coupon : Option ℝ

/-! ### model.py -/

/-- One output row of the forecast table. -/
structure Row where
  int_short : ℝ
  int_nb : ℝ
  int_tips : ℝ
  int_other : ℝ
  netint : ℝ
  debt : ℝ
  r_eff : ℝ

instance : Inhabited Row := ⟨⟨0, 0, 0, 0, 0, 0, 0⟩⟩

/-- The loop body of `model.forecast_monthly` at one timestamp, given the
    smoothed short rate, smoothed curve blend, monthly inflation and nominal
    GDP at that timestamp and the prior debt stock. -/
noncomputable def forecastStep (rs rnb tips gdp sS sNB sT ob cp debt_prev : ℝ) : Row :=
  let int_s := rs * debt_prev * sS / 12
  let intn := rnb * debt_prev * sNB / 12
  let intt := (tips + cp / 12) * debt_prev * sT
  let into := ob / 10000 / 12 * gdp
  let total := int_s + intn + intt + into
  let debt_curr := debt_prev + total
  let reff := if debt_prev ≠ 0 then 12 * total / debt_prev else 0
  ⟨int_s, intn, intt, into, total, debt_curr, reff⟩

/-- The `for t, ts in enumerate(idx)` loop of `model.forecast_monthly`:
    position `t`, remaining months `k`, carried prior debt stock. -/
noncomputable def forecastSteps (rs rnb tips g : List ℝ) (sS sNB sT ob cp : ℝ) :
    ℕ → ℕ → ℝ → List Row
  | _, 0, _ => []
  | t, k + 1, d =>
    forecastStep (rs.getD t 0) (rnb.getD t 0) (tips.getD t 0) (g.getD t 0) sS sNB sT ob cp d ::
      forecastSteps rs rnb tips g sS sNB sT ob cp (t + 1) k
        (forecastStep (rs.getD t 0) (rnb.getD t 0) (tips.getD t 0) (g.getD t 0) sS sNB sT ob cp d).debt

/-- `model.forecast_monthly`.  Mirrors the source's access pattern: the initial
    debt stock is resolved first (reading `nominal_gdp` only when the
    configured value is non-positive), the two half-lives are converted to
    smoothing weights, the five rate/inflation columns are read
    unconditionally, and `nominal_gdp` is read inside the loop (hence only
    when the frame has at least one row). -/
noncomputable def forecast_monthly (m : MacroFrame) (p : ParamsIn) (c : Config) :
    Except String (List Row) :=
  let n := m.idx.length
  match (if c.debt_public_initial_value.getD 0 ≤ 0 then
           match m.nominal_gdp with
           | none => Except.error "KeyError: nominal_gdp"
           | some g =>
             match g.head? with
             | none => Except.error "IndexError: index 0 is out of bounds"
             | some v => Except.ok v
         else Except.ok (c.debt_public_initial_value.getD 0)) with
  | .error e => .error e
  | .ok debt0 =>
    match half_life_to_alpha (p.hl_SHORT.getD 3) with
    | .error e => .error e
    | .ok alpha_s =>
      match half_life_to_alpha (p.hl_NB.getD 24) with
      | .error e => .error e
      | .ok alpha_nb =>
        match m.r2y, m.r5y, m.r10y, m.r3m, m.pce_infl_m with
        | some r2y_s, some r5y_s, some r10y_s, some r3m_s, some tips_m =>
          (match weighted_curve r2y_s r5y_s r10y_s [0.2, 0.4, 0.4] with
           | .error e => .error e
           | .ok r_nb_raw =>
             match ema r3m_s alpha_s with
             | .error e => .error e
             | .ok r_short =>
               match ema r_nb_raw alpha_nb with
               | .error e => .error e
               | .ok r_nb =>
                 if n = 0 then .ok []
                 else
                   match m.nominal_gdp with
                   | none => .error "KeyError: nominal_gdp"
                   | some g =>
                     .ok (forecastSteps r_short r_nb tips_m g
                       (p.share_SHORT.getD 0.25) (p.share_NB.getD 0.6)
                       (p.share_TIPS.getD 0.1) (p.other_bps.getD 0)
                       (c.r_tips_coupon.getD 0) 0 n debt0))
        | _, _, _, _, _ => .error "KeyError: missing macro column"

/-- The resolved initial debt stock `Debt[-1]`: the configured value, replaced
    by nominal GDP at the first month when the configured value is
    non-positive (lines 17-20 of model.py). -/
noncomputable def debtInit (m : MacroFrame) (c : Config) : ℝ :=
  if c.debt_public_initial_value.getD 0 ≤ 0 then (m.nominal_gdp.getD []).headD 0
  else c.debt_public_initial_value.getD 0

/-- `Debt[t-1]` as seen from the output table: the initial stock for the first
    row, else the previous row's debt. -/
noncomputable def prevDebt (rows : List Row) (d0 : ℝ) (t : ℕ) : ℝ :=
  if t = 0 then d0 else (rows.getD (t - 1) default).debt

/-- The set of required MacroSeries columns (the ones the engine and the
    calibrator read). -/
def MissingRequired (m : MacroFrame) : Prop :=
  m.r3m = none ∨ m.r2y = none ∨ m.r5y = none ∨ m.r10y = none ∨
    m.pce_infl_m = none ∨ m.nominal_gdp = none

/-- Exactly `nominal_gdp` is missing among the required columns. -/
def OnlyGdpMissing (m : MacroFrame) : Prop :=
  m.r3m ≠ none ∧ m.r2y ≠ none ∧ m.r5y ≠ none ∧ m.r10y ≠ none ∧
    m.pce_infl_m ≠ none ∧ m.nominal_gdp = none

/-! ### calibrate.py -/

/-- The four feature columns of the calibration design matrix. -/
structure DesignX where
  r_short : List ℝ
  r_nb_resid : List ℝ
  tips_m : List ℝ
  gdp_scaled : List ℝ

/-- The four economic parameters produced by `_coefs_to_params`. -/
structure CalParams where
  share_SHORT : ℝ
  share_NB : ℝ
  share_TIPS : ℝ
  other_bps : ℝ

instance : Inhabited CalParams := ⟨⟨0, 0, 0, 0⟩⟩

/-- The mapping returned by `calibrate_params`: the winning economic
    parameters augmented with the winning half-life pair. -/
structure CalibOut where
  share_SHORT : ℝ
  share_NB : ℝ
  share_TIPS : ℝ
  other_bps : ℝ
  hl_SHORT : ℝ
  hl_NB : ℝ

/-- `numpy.linalg.lstsq` as used by `calibrate._ols`: an external numeric
    routine mapping the response vector and the design matrix to a coefficient
    vector `(beta_s, beta_nb, beta_tips, gamma_scaled)` and a residual sum of
    squares.  It is not repository code, so it is a parameter of the embedded
    calibrator. -/
abbrev OlsFn := List ℝ → DesignX → (ℝ × ℝ × ℝ × ℝ) × ℝ

/-- Pandas `(u * v).sum()` on aligned series. -/
noncomputable def dotL (u v : List ℝ) : ℝ := (List.zipWith (· * ·) u v).sum

/-- `calibrate._design_matrix`.  The `ffill().fillna(0.0)` steps are the
    identity in the NaN-free real-valued model. -/
noncomputable def _design_matrix (m : MacroFrame) (hl_short hl_nb : ℝ) :
    Except String (DesignX × ℝ × ℝ) :=
  match half_life_to_alpha hl_short with
  | .error e => .error e
  | .ok alpha_s =>
    match half_life_to_alpha hl_nb with
    | .error e => .error e
    | .ok alpha_nb =>
      match m.r2y, m.r5y, m.r10y, m.r3m, m.pce_infl_m, m.nominal_gdp with
      | some r2y_s, some r5y_s, some r10y_s, some r3m_s, some tips, some gdp =>
        (match weighted_curve r2y_s r5y_s r10y_s [0.2, 0.4, 0.4] with
         | .error e => .error e
         | .ok r_nb_raw =>
           match ema r3m_s alpha_s with
           | .error e => .error e
           | .ok rs =>
             match ema r_nb_raw alpha_nb with
             | .error e => .error e
             | .ok rnb =>
               let denom := if dotL rs rs = 0 then 1 else dotL rs rs
               let a := dotL rnb rs / denom
               let r_nb_resid := List.zipWith (fun x y => x - a * y) rnb rs
               match gdp.head? with
               | none => .error "IndexError: index 0 is out of bounds"
               | some g0 =>
                 let gdp_scale := if |g0| = 0 then 1 else |g0|
                 .ok (⟨rs, r_nb_resid, tips, gdp.map (· / gdp_scale)⟩, a, gdp_scale))
      | _, _, _, _, _, _ => .error "KeyError: missing macro column"

/-- `calibrate._coefs_to_params`: clamp each share to [0,1] after scaling by
    `12 / max(debt_initial, 1)`, floor `other_bps` at 0, then rescale the
    three shares proportionally when they sum to more than 1. -/
noncomputable def _coefs_to_params (coef : ℝ × ℝ × ℝ × ℝ) (debt_initial : ℝ) : CalParams :=
  let denom := max debt_initial 1
  let share_short := max 0 (min 1 (12 * coef.1 / denom))
  let share_nb := max 0 (min 1 (12 * coef.2.1 / denom))
  let share_tips := max 0 (min 1 (12 * coef.2.2.1 / denom))
  let ob := max 0 (coef.2.2.2 * 12 * 10000)
  let ssum := share_short + share_nb + share_tips
  if 1 < ssum then
    ⟨share_short * (1 / ssum), share_nb * (1 / ssum), share_tips * (1 / ssum), ob⟩
  else ⟨share_short, share_nb, share_tips, ob⟩

/-- The clamped share `clamp(12*beta / max(debt_initial, 1), 0, 1)` of
    `_coefs_to_params`. -/
noncomputable def clampShare (beta d : ℝ) : ℝ := max 0 (min 1 (12 * beta / max d 1))

/-- One grid-cell evaluation inside `calibrate_params`: build the design
    matrix, run the least-squares kernel, reverse the orthogonalization and
    the GDP scaling, and map the coefficients to economic parameters.
    Returns the cell's score (the residual sum of squares) and parameters. -/
noncomputable def evalPair (ols : OlsFn) (y : List ℝ) (m : MacroFrame)
    (debt_initial : ℝ) (pr : ℝ × ℝ) : Except String (ℝ × CalParams) :=
  match _design_matrix m pr.1 pr.2 with
  | .error e => .error e
  | .ok (X, a, gdp_scale) =>
    let coef := (ols y X).1
    let rss := (ols y X).2
    let beta_nb := coef.2.1
    let beta_s := coef.1 - a * beta_nb
    let beta_tips := coef.2.2.1
    let gamma := coef.2.2.2 / gdp_scale
    .ok (rss, _coefs_to_params (beta_s, beta_nb, beta_tips, gamma) debt_initial)

/-- Running state of the grid search: (score, hl_short, hl_nb, params). -/
abbrev BestSt := ℝ × ℝ × ℝ × CalParams

/-- `if best is None or score < best[0]: best = (score, hl_s, hl_nb, params)`. -/
noncomputable def updateBest (pr : ℝ × ℝ) (score : ℝ) (prm : CalParams) :
    Option BestSt → BestSt
  | none => (score, pr.1, pr.2, prm)
  | some b => if score < b.1 then (score, pr.1, pr.2, prm) else b

/-- The grid-search loop of `calibrate_params` over the half-life pairs. -/
noncomputable def gridRun (ev : ℝ × ℝ → Except String (ℝ × CalParams)) :
    List (ℝ × ℝ) → Option BestSt → Except String (Option BestSt)
  | [], best => .ok best
  | pr :: rest, best =>
    match ev pr with
    | .error e => .error e
    | .ok sp => gridRun ev rest (some (updateBest pr sp.1 sp.2 best))

/-- `itertools.product(hl_short_grid, hl_nb_grid)` with
    `hl_short_grid = [3.0, 6.0, 12.0]`, `hl_nb_grid = [12.0, 18.0, 24.0, 30.0]`
    (the second factor varies fastest). -/
noncomputable def hlGrid : List (ℝ × ℝ) :=
  ([3, 6, 12] : List ℝ).flatMap fun a => ([12, 18, 24, 30] : List ℝ).map fun b => (a, b)

/-- `ieod_series.reindex(macro_df.index).fillna(0.0)`: label lookup with
    default 0. -/
noncomputable def lookupR (s : List (ℤ × ℝ)) (t : ℤ) : ℝ :=
  ((s.find? fun q => q.1 == t).map (·.2)).getD 0

/-- `calibrate.calibrate_params`: align the observed series, resolve the
    initial debt stock (GDP fallback when non-positive), fold the grid with
    strict-less replacement, and augment the winner with its half-lives. -/
noncomputable def calibrate_params (ols : OlsFn) (ieod : List (ℤ × ℝ))
    (m : MacroFrame) (c : Config) : Except String CalibOut :=
  let y := m.idx.map (lookupR ieod)
  match (if c.debt_public_initial_value.getD 0 ≤ 0 then
           match m.nominal_gdp with
           | none => Except.error "KeyError: nominal_gdp"
           | some g =>
             match g.head? with
             | none => Except.error "IndexError: index 0 is out of bounds"
             | some v => Except.ok v
         else Except.ok (c.debt_public_initial_value.getD 0)) with
  | .error e => .error e
  | .ok debt_initial =>
    match gridRun (evalPair ols y m debt_initial) hlGrid none with
    | .error e => .error e
    | .ok none => .error "assert best is not None"
    | .ok (some b) =>
      .ok ⟨b.2.2.2.share_SHORT, b.2.2.2.share_NB, b.2.2.2.share_TIPS,
           b.2.2.2.other_bps, b.2.1, b.2.2.1⟩

/-- Proof-side replay of the grid fold on pre-evaluated cells. -/
noncomputable def bestOf : Option BestSt → List ((ℝ × ℝ) × ℝ × CalParams) → Option BestSt
  | b, [] => b
  | b, x :: rest => bestOf (some (updateBest x.1 x.2.1 x.2.2 b)) rest

/-- The grid state built from one evaluated cell. -/
noncomputable def mkSt (x : (ℝ × ℝ) × ℝ × CalParams) : BestSt :=
  (x.2.1, x.1.1, x.1.2, x.2.2)

/-- The augmentation step: winning parameters plus winning half-lives. -/
noncomputable def toOut (prm : CalParams) (hs hnb : ℝ) : CalibOut :=
  ⟨prm.share_SHORT, prm.share_NB, prm.share_TIPS, prm.other_bps, hs, hnb⟩

/-! ### transforms.py year aggregation (modelled over ℚ; timestamps are
    absolute month numbers `12*year + (month-1)`, so the calendar year is
    euclidean division by 12 and the pandas `DateOffset(months=3)` shift is
    `+3`). -/

/-- Calendar-year label of a month number, after the fiscal shift if
    requested. -/
def yearLabel (fy : Bool) (t : ℤ) : ℤ := if fy then (t + 3).ediv 12 else t.ediv 12

/-- `v.reindex(all_idx).fillna(0.0)` at one timestamp: first matching entry or
    zero. -/
def lookup0 (s : List (ℤ × ℚ)) (t : ℤ) : ℚ :=
  ((s.find? fun q => q.1 == t).map (·.2)).getD 0

/-- The sorted union of the time indices of all named series. -/
def unionIdx (sm : List (String × List (ℤ × ℚ))) : List ℤ :=
  ((sm.map fun ks => ks.2.map (·.1)).flatten.dedup).insertionSort (· ≤ ·)

/-- `transforms._aggregate_by_year`: union the indices, fill missing with
    zero, group by (fiscal) calendar year, sum within each group, and append a
    `total` column equal to the row-wise sum across the named series.  Each
    output row is `(year, named sums, total)`, years in first-appearance order
    of the sorted union index (pandas groupby sorts keys). -/
def _aggregate_by_year (sm : List (String × List (ℤ × ℚ))) (fy : Bool) :
    List (ℤ × List (String × ℚ) × ℚ) :=
  let idxU := unionIdx sm
  let years := (idxU.map (yearLabel fy)).dedup
  years.map fun yr =>
    let grp := idxU.filter fun t => yearLabel fy t == yr
    let vals := sm.map fun ks => (ks.1, (grp.map (lookup0 ks.2)).sum)
    (yr, vals, (vals.map (·.2)).sum)

/-- `transforms.aggregate_cy`. -/
def aggregate_cy (sm : List (String × List (ℤ × ℚ))) := _aggregate_by_year sm false

/-- `transforms.aggregate_fy`. -/
def aggregate_fy (sm : List (String × List (ℤ × ℚ))) := _aggregate_by_year sm true

/-! ### Concrete inputs used by witnesses and counterexamples -/

/-- A one-month frame whose rate and inflation columns are all zero. -/
noncomputable def mZero : MacroFrame :=
  ⟨[0], some [0], some [0], some [0], some [0], some [0], none, some [1]⟩

/-- A zero-row frame that has every required column except `nominal_gdp`. -/
noncomputable def mNoGdp : MacroFrame :=
  ⟨[], some [], some [], some [], some [], some [], none, none⟩

/-- A one-month frame missing `r3m`. -/
noncomputable def mNoR3m : MacroFrame :=
  ⟨[0], none, some [0], some [0], some [0], some [0], none, some [1]⟩

/-- A two-month frame whose four rate columns are constantly 1, with zero
    inflation. -/
noncomputable def mConst : MacroFrame :=
  ⟨[0, 1], some [1, 1], some [1, 1], some [1, 1], some [1, 1], some [0, 0], none,
    some [5, 5]⟩

/-- An empty parameter mapping. -/
def pNone : ParamsIn := ⟨none, none, none, none, none, none⟩

/-- Parameters selecting a zero TIPS share and zero residual spread. -/
noncomputable def pNoTips : ParamsIn := ⟨none, none, none, none, some 0, some 0⟩

/-- A configuration with a positive initial debt stock of 100 and no TIPS
    coupon key. -/
noncomputable def c100 : Config := ⟨some 100, none⟩

/-- A least-squares stub returning zero coefficients and zero residual. -/
noncomputable def olsZero : OlsFn := fun _ _ => ((0, 0, 0, 0), 0)

/-- Six consecutive months Oct 2019 .. Mar 2020, each valued 18
    (month numbers 12*2019+9 .. 12*2020+2). -/
def netIntExample : List (String × List (ℤ × ℚ)) :=
  [("NetInt", [(24237, 18), (24238, 18), (24239, 18), (24240, 18), (24241, 18), (24242, 18)])]

/-! ## Facts about the smoothing weight -/

lemma alphaOf_pos {hl : ℝ} (h : 0 < hl) : 0 < alphaOf hl := by
  have h1 : (1 / 2 : ℝ) ^ (1 / hl) < 1 :=
    Real.rpow_lt_one (by norm_num) (by norm_num) (by positivity)
  exact sub_pos.mpr h1

lemma alphaOf_lt_one (hl : ℝ) : alphaOf hl < 1 := by
  have h1 : (0 : ℝ) < (1 / 2 : ℝ) ^ (1 / hl) := Real.rpow_pos_of_pos (by norm_num) _
  simpa [alphaOf] using sub_lt_self 1 h1

lemma alphaOf_le_one (hl : ℝ) : alphaOf hl ≤ 1 := (alphaOf_lt_one hl).le

lemma hlta_ok {hl : ℝ} (h : 0 < hl) : half_life_to_alpha hl = .ok (alphaOf hl) := by
  simp [half_life_to_alpha, not_le.mpr h]

lemma hlta_ok_inv {hl a : ℝ} (h : half_life_to_alpha hl = .ok a) :
    0 < hl ∧ a = alphaOf hl := by
  by_cases hle : hl ≤ 0
  · simp [half_life_to_alpha, hle] at h
  · refine ⟨not_le.mp hle, ?_⟩
    simpa [half_life_to_alpha, hle] using h.symm

/-! ## Facts about the EMA -/

lemma ema_ok {a : ℝ} (h1 : 0 < a) (h2 : a ≤ 1) (s : List ℝ) :
    ema s a = .ok (emaFull a s) := by
  simp [ema, h1, h2]

lemma ema_ok_inv {s out : List ℝ} {a : ℝ} (h : ema s a = .ok out) :
    (0 < a ∧ a ≤ 1) ∧ out = emaFull a s := by
  by_cases hc : 0 < a ∧ a ≤ 1
  · refine ⟨hc, ?_⟩
    simpa [ema, hc] using h.symm
  · simp [ema, hc] at h

lemma emaRun_length (a : ℝ) : ∀ (prev : ℝ) (l : List ℝ),
    (emaRun a prev l).length = l.length
  | _, [] => rfl
  | prev, y :: ys => by
    simp [emaRun, emaRun_length a _ ys]

lemma emaFull_length (a : ℝ) (s : List ℝ) : (emaFull a s).length = s.length := by
  cases s with
  | nil => rfl
  | cons x xs => simp [emaFull, emaRun_length]

lemma emaRun_const {a c : ℝ} : ∀ {l : List ℝ}, (∀ x ∈ l, x = c) →
    ∀ {prev : ℝ}, prev = c → ∀ x ∈ emaRun a prev l, x = c := by
  intro l
  induction l with
  | nil => intro _ _ _ x hx; simp [emaRun] at hx
  | cons y ys ih =>
    intro hall prev hprev x hx
    have hy : y = c := hall y (by simp)
    have hv : a * y + (1 - a) * prev = c := by rw [hy, hprev]; ring
    rcases (by simpa [emaRun] using hx : x = a * y + (1 - a) * prev ∨ x ∈ emaRun a (a * y + (1 - a) * prev) ys) with h | h
    · rw [h, hv]
    · exact ih (fun z hz => hall z (by simp [hz])) hv x h

lemma emaFull_const {a c : ℝ} {s : List ℝ} (h : ∀ x ∈ s, x = c) :
    ∀ x ∈ emaFull a s, x = c := by
  cases s with
  | nil => intro x hx; simp [emaFull] at hx
  | cons y ys =>
    intro x hx
    have hy : y = c := h y (by simp)
    rcases (by simpa [emaFull] using hx : x = y ∨ x ∈ emaRun a y ys) with hh | hh
    · rw [hh, hy]
    · exact emaRun_const (fun z hz => h z (by simp [hz])) hy x hh

lemma emaRun_getD (a : ℝ) : ∀ (l : List ℝ) (prev : ℝ) (i : ℕ), i < l.length →
    (emaRun a prev l).getD i 0 =
      a * l.getD i 0 +
        (1 - a) * (if i = 0 then prev else (emaRun a prev l).getD (i - 1) 0) := by
  intro l
  induction l with
  | nil => intro prev i hi; simp at hi
  | cons y ys ih =>
    intro prev i hi
    cases i with
    | zero => simp [emaRun]
    | succ j =>
      have hj : j < ys.length := by simpa using hi
      have := ih (a * y + (1 - a) * prev) j hj
      cases j with
      | zero => simpa [emaRun] using this
      | succ j2 => simpa [emaRun] using this

/-! ## Facts about the weighted blend -/

lemma zipWith3R_length (f : ℝ → ℝ → ℝ → ℝ) : ∀ (l1 l2 l3 : List ℝ),
    (zipWith3R f l1 l2 l3).length = min l1.length (min l2.length l3.length)
  | [], _, _ => by simp [zipWith3R]
  | _ :: _, [], _ => by simp [zipWith3R]
  | _ :: _, _ :: _, [] => by simp [zipWith3R]
  | a :: as, b :: bs, c :: cs => by
    simp [zipWith3R, zipWith3R_length f as bs cs]
    omega

lemma zipWith3R_mem {f : ℝ → ℝ → ℝ → ℝ} :
    ∀ {l1 l2 l3 : List ℝ} {x : ℝ}, x ∈ zipWith3R f l1 l2 l3 →
      ∃ a ∈ l1, ∃ b ∈ l2, ∃ c ∈ l3, x = f a b c := by
  intro l1
  induction l1 with
  | nil => intro l2 l3 x hx; simp [zipWith3R] at hx
  | cons a as ih =>
    intro l2 l3 x hx
    cases l2 with
    | nil => simp [zipWith3R] at hx
    | cons b bs =>
      cases l3 with
      | nil => simp [zipWith3R] at hx
      | cons c cs =>
        rcases (by simpa [zipWith3R] using hx : x = f a b c ∨ x ∈ zipWith3R f as bs cs) with h | h
        · exact ⟨a, by simp, b, by simp, c, by simp, h⟩
        · obtain ⟨a2, ha, b2, hb, c2, hc, hx2⟩ := ih h
          exact ⟨a2, by simp [ha], b2, by simp [hb], c2, by simp [hc], hx2⟩

lemma getD_mem {α : Type} : ∀ (l : List α) (d : α) {i : ℕ}, i < l.length →
    l.getD i d ∈ l := by
  intro l
  induction l with
  | nil => intro d i hi; simp at hi
  | cons x xs ih =>
    intro d i hi
    cases i with
    | zero => simp
    | succ j => exact List.mem_cons_of_mem x (ih d (by simpa using hi))

/-- C5: for every series and every alpha in (0, 1], `ema` returns a series of
    the same length with `out[0] = series[0]` and
    `out[i] = alpha*series[i] + (1-alpha)*out[i-1]` for i >= 1; for alpha
    outside (0, 1] it raises an invalid-parameter error for every series; and
    (on a valid alpha) an empty input is returned unchanged. -/
theorem ema_spec (s : List ℝ) (a : ℝ) :
    ((0 < a ∧ a ≤ 1) → ∃ out, ema s a = .ok out ∧ out.length = s.length ∧
      out.getD 0 0 = s.getD 0 0 ∧
      (∀ i, i + 1 < s.length →
        out.getD (i + 1) 0 = a * s.getD (i + 1) 0 + (1 - a) * out.getD i 0)) ∧
    (¬(0 < a ∧ a ≤ 1) → ∃ e, ema s a = .error e) ∧
    ((0 < a ∧ a ≤ 1) → s = [] → ema s a = .ok []) := by
  refine ⟨?_, ?_, ?_⟩
  · rintro ⟨h1, h2⟩
    refine ⟨emaFull a s, ema_ok h1 h2 s, emaFull_length a s, ?_, ?_⟩
    · cases s with
      | nil => rfl
      | cons x xs => rfl
    · intro i hi
      cases s with
      | nil => simp at hi
      | cons x xs =>
        have hix : i < xs.length := by simpa using hi
        have hrec := emaRun_getD a xs x i hix
        cases i with
        | zero => simpa [emaFull] using hrec
        | succ j => simpa [emaFull] using hrec
  · intro h
    exact ⟨"alpha must be in (0, 1]", by simp [ema, h]⟩
  · rintro ⟨h1, h2⟩ hs
    subst hs
    simp [ema, emaFull, h1, h2]

theorem ema_spec_witness :
    ∃ out, ema [1, 2] (1 / 2 : ℝ) = .ok out ∧ out.length = 2 := by
  obtain ⟨out, h1, h2, -, -⟩ := (ema_spec [1, 2] (1 / 2)).1 (by norm_num)
  exact ⟨out, h1, by simpa using h2⟩

/-- C6: `half_life_to_alpha` raises exactly when its argument is <= 0; for
    every hl > 0 it returns `1 - 0.5 ^ (1/hl)`, which lies strictly between 0
    and 1; and the returned weight is strictly decreasing in the half-life. -/
theorem half_life_to_alpha_spec (hl : ℝ) :
    (hl ≤ 0 → ∃ e, half_life_to_alpha hl = .error e) ∧
    (0 < hl → half_life_to_alpha hl = .ok (1 - (1 / 2 : ℝ) ^ (1 / hl)) ∧
      0 < alphaOf hl ∧ alphaOf hl < 1) ∧
    (∀ hl2, 0 < hl → hl < hl2 → alphaOf hl2 < alphaOf hl) := by
  refine ⟨?_, ?_, ?_⟩
  · intro h
    exact ⟨"half_life_months must be positive", by simp [half_life_to_alpha, h]⟩
  · intro h
    exact ⟨hlta_ok h, alphaOf_pos h, alphaOf_lt_one hl⟩
  · intro hl2 h1 h12
    have hinv : 1 / hl2 < 1 / hl := one_div_lt_one_div_of_lt h1 h12
    have hpow : (1 / 2 : ℝ) ^ (1 / hl) < (1 / 2 : ℝ) ^ (1 / hl2) :=
      Real.rpow_lt_rpow_of_exponent_gt (by norm_num) (by norm_num) hinv
    exact sub_lt_sub_left hpow 1

theorem half_life_to_alpha_spec_witness :
    (∃ e, half_life_to_alpha (-1) = .error e) ∧ alphaOf 6 < alphaOf 3 :=
  ⟨(half_life_to_alpha_spec (-1)).1 (by norm_num),
   (half_life_to_alpha_spec 3).2.2 6 (by norm_num) (by norm_num)⟩

/-! ## Facts about the forecast loop -/

lemma forecastSteps_length (rs rnb tips g : List ℝ) (sS sNB sT ob cp : ℝ) :
    ∀ (k t : ℕ) (d : ℝ), (forecastSteps rs rnb tips g sS sNB sT ob cp t k d).length = k
  | 0, _, _ => rfl
  | k + 1, t, d => by
    simp [forecastSteps, forecastSteps_length rs rnb tips g sS sNB sT ob cp k]

lemma forecastSteps_getD_zero (rs rnb tips g : List ℝ) (sS sNB sT ob cp : ℝ)
    {k : ℕ} (t : ℕ) (d : ℝ) (hk : 0 < k) :
    (forecastSteps rs rnb tips g sS sNB sT ob cp t k d).getD 0 default =
      forecastStep (rs.getD t 0) (rnb.getD t 0) (tips.getD t 0) (g.getD t 0)
        sS sNB sT ob cp d := by
  cases k with
  | zero => omega
  | succ k2 => rfl

lemma forecastSteps_getD_succ (rs rnb tips g : List ℝ) (sS sNB sT ob cp : ℝ) :
    ∀ (i k t : ℕ) (d : ℝ), i + 1 < k →
      (forecastSteps rs rnb tips g sS sNB sT ob cp t k d).getD (i + 1) default =
        forecastStep (rs.getD (t + i + 1) 0) (rnb.getD (t + i + 1) 0)
          (tips.getD (t + i + 1) 0) (g.getD (t + i + 1) 0) sS sNB sT ob cp
          ((forecastSteps rs rnb tips g sS sNB sT ob cp t k d).getD i default).debt := by
  intro i
  induction i with
  | zero =>
    intro k t d hk
    match k, hk with
    | k2 + 2, _ =>
      simp only [forecastSteps, List.getD_cons_succ, List.getD_cons_zero]
  | succ j ih =>
    intro k t d hk
    match k, hk with
    | k2 + 1, _ =>
      have hj : j + 1 < k2 := by omega
      have := ih k2 (t + 1)
        (forecastStep (rs.getD t 0) (rnb.getD t 0) (tips.getD t 0) (g.getD t 0)
          sS sNB sT ob cp d).debt hj
      have harith : t + 1 + j + 1 = t + (j + 1) + 1 := by omega
      rw [harith] at this
      simpa [forecastSteps] using this

lemma forecastStep_inv (rs rnb tips gdp sS sNB sT ob cp d : ℝ) :
    (forecastStep rs rnb tips gdp sS sNB sT ob cp d).netint =
        (forecastStep rs rnb tips gdp sS sNB sT ob cp d).int_short +
        (forecastStep rs rnb tips gdp sS sNB sT ob cp d).int_nb +
        (forecastStep rs rnb tips gdp sS sNB sT ob cp d).int_tips +
        (forecastStep rs rnb tips gdp sS sNB sT ob cp d).int_other ∧
      (forecastStep rs rnb tips gdp sS sNB sT ob cp d).debt =
        d + (forecastStep rs rnb tips gdp sS sNB sT ob cp d).netint ∧
      (forecastStep rs rnb tips gdp sS sNB sT ob cp d).r_eff =
        (if d = 0 then 0
         else 12 * (forecastStep rs rnb tips gdp sS sNB sT ob cp d).netint / d) := by
  by_cases hd : d = 0 <;> simp [forecastStep, hd]

/-- Every successful run of the engine is the pure loop `forecastSteps` on the
    extracted columns, started from the resolved initial debt stock. -/
lemma forecast_ok_elim {m : MacroFrame} {p : ParamsIn} {c : Config} {rows : List Row}
    (h : forecast_monthly m p c = .ok rows) :
    rows = [] ∨
    ∃ g r2 r5 r10 r3 tp,
      m.nominal_gdp = some g ∧ m.r2y = some r2 ∧ m.r5y = some r5 ∧
      m.r10y = some r10 ∧ m.r3m = some r3 ∧ m.pce_infl_m = some tp ∧
      0 < p.hl_SHORT.getD 3 ∧ 0 < p.hl_NB.getD 24 ∧
      (c.debt_public_initial_value.getD 0 ≤ 0 → g.head? = some (debtInit m c)) ∧
      rows = forecastSteps (emaFull (alphaOf (p.hl_SHORT.getD 3)) r3)
        (emaFull (alphaOf (p.hl_NB.getD 24))
          (zipWith3R (fun a b c2 => 0.2 * a + 0.4 * b + 0.4 * c2) r2 r5 r10))
        tp g (p.share_SHORT.getD 0.25) (p.share_NB.getD 0.6) (p.share_TIPS.getD 0.1)
        (p.other_bps.getD 0) (c.r_tips_coupon.getD 0) 0 m.idx.length (debtInit m c) := by
  unfold forecast_monthly at h
  split at h
  · exact absurd h (by simp)
  case _ debt0 hd0 =>
  split at h
  · exact absurd h (by simp)
  case _ alpha_s has =>
  split at h
  · exact absurd h (by simp)
  case _ alpha_nb hanb =>
  split at h
  case _ r2 r5 r10 r3 tp h2 h5 h10 h3 htp =>
    split at h
    · exact absurd h (by simp)
    case _ r_nb_raw hwc =>
    split at h
    · exact absurd h (by simp)
    case _ r_short hes =>
    split at h
    · exact absurd h (by simp)
    case _ r_nb henb =>
    split at h
    case _ hgn =>
      -- nominal_gdp missing: only the zero-row branch returns
      by_cases hn0 : m.idx.length = 0
      · left
        simp [hn0] at h
        exact h
      · simp [hn0] at h
    case _ g hg =>
    by_cases hn0 : m.idx.length = 0
    · left
      simp [hn0] at h
      exact h
    right
    obtain ⟨hhs, has2⟩ := hlta_ok_inv has
    obtain ⟨hhnb, hanb2⟩ := hlta_ok_inv hanb
    obtain ⟨-, hes2⟩ := ema_ok_inv hes
    obtain ⟨-, henb2⟩ := ema_ok_inv henb
    have hraw : r_nb_raw =
        zipWith3R (fun a b c2 => 0.2 * a + 0.4 * b + 0.4 * c2) r2 r5 r10 := by
      simpa [weighted_curve] using hwc.symm
    -- the resolved debt0 is debtInit m c
    have hdebt0 : debt0 = debtInit m c ∧
        (c.debt_public_initial_value.getD 0 ≤ 0 → g.head? = some (debtInit m c)) := by
      by_cases hcfg : c.debt_public_initial_value.getD 0 ≤ 0
      · rw [if_pos hcfg, hg] at hd0
        cases g with
        | nil => simp at hd0
        | cons x xs =>
          have hx : x = debt0 := by simpa using hd0
          have hdi : debtInit m c = x := by simp [debtInit, hcfg, hg]
          exact ⟨by rw [hdi, hx], fun _ => by rw [hdi]; simp⟩
      · rw [if_neg hcfg] at hd0
        have hv : c.debt_public_initial_value.getD 0 = debt0 := by simpa using hd0
        exact ⟨by simp only [debtInit, if_neg hcfg]; exact hv.symm,
          fun hc2 => absurd hc2 hcfg⟩
    refine ⟨g, r2, r5, r10, r3, tp, hg, h2, h5, h10, h3, htp, hhs, hhnb, hdebt0.2, ?_⟩
    have hrows : forecastSteps r_short r_nb tp g (p.share_SHORT.getD 0.25)
        (p.share_NB.getD 0.6) (p.share_TIPS.getD 0.1) (p.other_bps.getD 0)
        (c.r_tips_coupon.getD 0) 0 m.idx.length debt0 = rows := by
      simpa [hn0] using h
    rw [← hrows, hes2, henb2, hraw, has2, hanb2, hdebt0.1]
  · exact absurd h (by simp)

/-- C1: every table returned by the forecast engine satisfies, at every month
    t: `NetInt[t] = Int_SHORT[t] + Int_NB[t] + Int_TIPS[t] + Int_OTHER[t]`,
    `Debt[t] = Debt[t-1] + NetInt[t]` (no primary-deficit term), and
    `r_eff[t] = 12 * NetInt[t] / Debt[t-1]` (0 when `Debt[t-1] = 0`), where
    `Debt[-1]` is the configured initial debt stock, replaced by nominal GDP
    at the first month when the configured value is non-positive. -/
theorem forecast_trajectory_invariants (m : MacroFrame) (p : ParamsIn) (c : Config)
    (rows : List Row) (hok : forecast_monthly m p c = .ok rows)
    (t : ℕ) (ht : t < rows.length) :
    ((rows.getD t default).netint =
       (rows.getD t default).int_short + (rows.getD t default).int_nb +
         (rows.getD t default).int_tips + (rows.getD t default).int_other) ∧
    ((rows.getD t default).debt =
       prevDebt rows (debtInit m c) t + (rows.getD t default).netint) ∧
    ((rows.getD t default).r_eff =
       if prevDebt rows (debtInit m c) t = 0 then 0
       else 12 * (rows.getD t default).netint / prevDebt rows (debtInit m c) t) ∧
    (0 < c.debt_public_initial_value.getD 0 →
       debtInit m c = c.debt_public_initial_value.getD 0) ∧
    (c.debt_public_initial_value.getD 0 ≤ 0 →
       some (debtInit m c) = (m.nominal_gdp.getD []).head?) := by
  rcases forecast_ok_elim hok with hnil | ⟨g, r2, r5, r10, r3, tp, hg, -, -, -, -, -,
    -, -, hhead, hrows⟩
  · subst hnil; simp at ht
  have hlen : rows.length = m.idx.length := by rw [hrows]; exact forecastSteps_length ..
  have hstep : (rows.getD t default) =
      forecastStep ((emaFull (alphaOf (p.hl_SHORT.getD 3)) r3).getD t 0)
        ((emaFull (alphaOf (p.hl_NB.getD 24))
          (zipWith3R (fun a b c2 => 0.2 * a + 0.4 * b + 0.4 * c2) r2 r5 r10)).getD t 0)
        (tp.getD t 0) (g.getD t 0) (p.share_SHORT.getD 0.25) (p.share_NB.getD 0.6)
        (p.share_TIPS.getD 0.1) (p.other_bps.getD 0) (c.r_tips_coupon.getD 0)
        (prevDebt rows (debtInit m c) t) := by
    cases t with
    | zero =>
      rw [hrows, prevDebt]
      simpa using forecastSteps_getD_zero _ _ _ _ _ _ _ _ _ 0 (debtInit m c)
        (by omega)
    | succ i =>
      have hsucc := forecastSteps_getD_succ
        (emaFull (alphaOf (p.hl_SHORT.getD 3)) r3)
        (emaFull (alphaOf (p.hl_NB.getD 24))
          (zipWith3R (fun a b c2 => 0.2 * a + 0.4 * b + 0.4 * c2) r2 r5 r10))
        tp g (p.share_SHORT.getD 0.25) (p.share_NB.getD 0.6) (p.share_TIPS.getD 0.1)
        (p.other_bps.getD 0) (c.r_tips_coupon.getD 0) i m.idx.length 0 (debtInit m c)
        (by omega)
      rw [hrows, prevDebt]
      simpa [hrows] using hsucc
  have hinv := forecastStep_inv ((emaFull (alphaOf (p.hl_SHORT.getD 3)) r3).getD t 0)
    ((emaFull (alphaOf (p.hl_NB.getD 24))
      (zipWith3R (fun a b c2 => 0.2 * a + 0.4 * b + 0.4 * c2) r2 r5 r10)).getD t 0)
    (tp.getD t 0) (g.getD t 0) (p.share_SHORT.getD 0.25) (p.share_NB.getD 0.6)
    (p.share_TIPS.getD 0.1) (p.other_bps.getD 0) (c.r_tips_coupon.getD 0)
    (prevDebt rows (debtInit m c) t)
  rw [hstep]
  refine ⟨hinv.1, hinv.2.1, hinv.2.2, ?_, ?_⟩
  · intro hpos
    simp [debtInit, not_le.mpr hpos]
  · intro hle
    rw [hg]
    simpa using (hhead hle).symm

/-- C7: at every month t, the TIPS accrual is
    `Int_TIPS[t] = (pce_infl_m[t] + r_tips_coupon/12) * Debt[t-1] * share_TIPS`
    with no /12 on the inflation term; when the coupon is 0 it is exactly
    `pce_infl_m[t] * Debt[t-1] * share_TIPS`. -/
theorem forecast_tips_accrual (m : MacroFrame) (p : ParamsIn) (c : Config)
    (rows : List Row) (hok : forecast_monthly m p c = .ok rows)
    (t : ℕ) (ht : t < rows.length) :
    ((rows.getD t default).int_tips =
       ((m.pce_infl_m.getD []).getD t 0 + c.r_tips_coupon.getD 0 / 12) *
         prevDebt rows (debtInit m c) t * p.share_TIPS.getD 0.1) ∧
    (c.r_tips_coupon.getD 0 = 0 →
       (rows.getD t default).int_tips =
         (m.pce_infl_m.getD []).getD t 0 * prevDebt rows (debtInit m c) t *
           p.share_TIPS.getD 0.1) := by
  rcases forecast_ok_elim hok with hnil | ⟨g, r2, r5, r10, r3, tp, hg, -, -, -, -, htp,
    -, -, -, hrows⟩
  · subst hnil; simp at ht
  have hlen : rows.length = m.idx.length := by rw [hrows]; exact forecastSteps_length ..
  have hstep : (rows.getD t default) =
      forecastStep ((emaFull (alphaOf (p.hl_SHORT.getD 3)) r3).getD t 0)
        ((emaFull (alphaOf (p.hl_NB.getD 24))
          (zipWith3R (fun a b c2 => 0.2 * a + 0.4 * b + 0.4 * c2) r2 r5 r10)).getD t 0)
        (tp.getD t 0) (g.getD t 0) (p.share_SHORT.getD 0.25) (p.share_NB.getD 0.6)
        (p.share_TIPS.getD 0.1) (p.other_bps.getD 0) (c.r_tips_coupon.getD 0)
        (prevDebt rows (debtInit m c) t) := by
    cases t with
    | zero =>
      rw [hrows, prevDebt]
      simpa using forecastSteps_getD_zero _ _ _ _ _ _ _ _ _ 0 (debtInit m c)
        (by omega)
    | succ i =>
      have hsucc := forecastSteps_getD_succ
        (emaFull (alphaOf (p.hl_SHORT.getD 3)) r3)
        (emaFull (alphaOf (p.hl_NB.getD 24))
          (zipWith3R (fun a b c2 => 0.2 * a + 0.4 * b + 0.4 * c2) r2 r5 r10))
        tp g (p.share_SHORT.getD 0.25) (p.share_NB.getD 0.6) (p.share_TIPS.getD 0.1)
        (p.other_bps.getD 0) (c.r_tips_coupon.getD 0) i m.idx.length 0 (debtInit m c)
        (by omega)
      rw [hrows, prevDebt]
      simpa [hrows] using hsucc
  rw [hstep, htp]
  constructor
  · simp [forecastStep]
  · intro hcp
    rw [hcp]
    simp [forecastStep]

/-- C10: the forecast engine never raises on missing parameter keys: an empty
    parameter mapping behaves exactly like the fully specified defaults
    `hl_SHORT = 3`, `hl_NB = 24`, `share_SHORT = 0.25`, `share_NB = 0.60`,
    `share_TIPS = 0.10`, `other_bps = 0`, and a missing `model.r_tips_coupon`
    is treated as 0. -/
theorem forecast_default_params (m : MacroFrame) (dv : Option ℝ) :
    forecast_monthly m pNone ⟨dv, none⟩ =
      forecast_monthly m ⟨some 3, some 24, some 0.25, some 0.6, some 0.1, some 0⟩
        ⟨dv, some 0⟩ := rfl

/-! ## Constant-rate closed form -/

lemma forecastSteps_debt_const (rs rnb tp g : List ℝ) (sS sNB cp rr : ℝ) :
    ∀ (k t0 : ℕ) (d : ℝ),
      (∀ i, i < k → rs.getD (t0 + i) 0 = rr) →
      (∀ i, i < k → rnb.getD (t0 + i) 0 = rr) →
      (∀ i, i < k → tp.getD (t0 + i) 0 = 0) →
      ∀ i, i < k →
        ((forecastSteps rs rnb tp g sS sNB 0 0 cp t0 k d).getD i default).debt =
          d * (1 + rr * (sS + sNB) / 12) ^ (i + 1) := by
  intro k
  induction k with
  | zero => intro t0 d _ _ _ i hi; omega
  | succ k2 ih =>
    intro t0 d h1 h2 h3 i hi
    have e1 : rs.getD t0 0 = rr := by simpa using h1 0 (by omega)
    have e2 : rnb.getD t0 0 = rr := by simpa using h2 0 (by omega)
    have e3 : tp.getD t0 0 = 0 := by simpa using h3 0 (by omega)
    have hrow : (forecastStep (rs.getD t0 0) (rnb.getD t0 0) (tp.getD t0 0) (g.getD t0 0)
        sS sNB 0 0 cp d).debt = d * (1 + rr * (sS + sNB) / 12) := by
      simp only [forecastStep, e1, e2, e3]
      ring
    cases i with
    | zero =>
      rw [forecastSteps_getD_zero rs rnb tp g sS sNB 0 0 cp t0 d (by omega), pow_one]
      exact hrow
    | succ j =>
      have h1s : ∀ i2, i2 < k2 → rs.getD (t0 + 1 + i2) 0 = rr := by
        intro i2 hi2
        have := h1 (i2 + 1) (by omega)
        rwa [show t0 + (i2 + 1) = t0 + 1 + i2 by omega] at this
      have h2s : ∀ i2, i2 < k2 → rnb.getD (t0 + 1 + i2) 0 = rr := by
        intro i2 hi2
        have := h2 (i2 + 1) (by omega)
        rwa [show t0 + (i2 + 1) = t0 + 1 + i2 by omega] at this
      have h3s : ∀ i2, i2 < k2 → tp.getD (t0 + 1 + i2) 0 = 0 := by
        intro i2 hi2
        have := h3 (i2 + 1) (by omega)
        rwa [show t0 + (i2 + 1) = t0 + 1 + i2 by omega] at this
      have hrec := ih (t0 + 1)
        (forecastStep (rs.getD t0 0) (rnb.getD t0 0) (tp.getD t0 0) (g.getD t0 0)
          sS sNB 0 0 cp d).debt h1s h2s h3s j (by omega)
      simp only [forecastSteps, List.getD_cons_succ]
      rw [hrec, hrow]
      ring

/-- Forward evaluation of a successful engine run on fully present columns
    with a positive configured debt stock. -/
lemma forecast_eval {m : MacroFrame} {p : ParamsIn} {c : Config}
    {g r2 r5 r10 r3 tp : List ℝ}
    (hg : m.nominal_gdp = some g) (h2 : m.r2y = some r2) (h5 : m.r5y = some r5)
    (h10 : m.r10y = some r10) (h3 : m.r3m = some r3) (htp : m.pce_infl_m = some tp)
    (hcfg : ¬c.debt_public_initial_value.getD 0 ≤ 0)
    (hhs : 0 < p.hl_SHORT.getD 3) (hhnb : 0 < p.hl_NB.getD 24)
    (hn : m.idx.length ≠ 0) :
    forecast_monthly m p c = .ok (forecastSteps
      (emaFull (alphaOf (p.hl_SHORT.getD 3)) r3)
      (emaFull (alphaOf (p.hl_NB.getD 24))
        (zipWith3R (fun a b c2 => 0.2 * a + 0.4 * b + 0.4 * c2) r2 r5 r10))
      tp g (p.share_SHORT.getD 0.25) (p.share_NB.getD 0.6) (p.share_TIPS.getD 0.1)
      (p.other_bps.getD 0) (c.r_tips_coupon.getD 0) 0 m.idx.length
      (c.debt_public_initial_value.getD 0)) := by
  simp [forecast_monthly, hg, h2, h5, h10, h3, htp, hcfg, hn, hlta_ok hhs, hlta_ok hhnb,
    ema_ok (alphaOf_pos hhs) (alphaOf_le_one _), ema_ok (alphaOf_pos hhnb) (alphaOf_le_one _),
    weighted_curve]

/-- C2: with every rate input constantly `rr` (so both smoothed rates are
    constantly `rr`), zero inflation, zero TIPS coupon, zero TIPS share, and
    zero `other_bps`, the debt stock after n months equals
    `Debt0 * (1 + rr*(share_SHORT + share_NB)/12)^n` (exactly, in the real
    model, hence within any relative tolerance). -/
theorem forecast_constant_rate_closed_form (m : MacroFrame) (p : ParamsIn) (c : Config)
    (rows : List Row) (rr : ℝ) (hok : forecast_monthly m p c = .ok rows) (hwf : m.WF)
    (h3m : ∀ x ∈ m.r3m.getD [], x = rr) (h2m : ∀ x ∈ m.r2y.getD [], x = rr)
    (h5m : ∀ x ∈ m.r5y.getD [], x = rr) (h10m : ∀ x ∈ m.r10y.getD [], x = rr)
    (hinfl : ∀ x ∈ m.pce_infl_m.getD [], x = 0)
    (hsT : p.share_TIPS.getD 0.1 = 0) (hob : p.other_bps.getD 0 = 0)
    (hcp : c.r_tips_coupon.getD 0 = 0)
    (t : ℕ) (ht : t < rows.length) :
    (rows.getD t default).debt =
      debtInit m c *
        (1 + rr * (p.share_SHORT.getD 0.25 + p.share_NB.getD 0.6) / 12) ^ (t + 1) := by
  rcases forecast_ok_elim hok with hnil | ⟨g, r2, r5, r10, r3, tp, hg, h2, h5, h10, h3c,
    htpc, -, -, -, hrows⟩
  · subst hnil; simp at ht
  have hlen : rows.length = m.idx.length := by rw [hrows]; exact forecastSteps_length ..
  rw [h3c] at h3m; rw [h2] at h2m; rw [h5] at h5m; rw [h10] at h10m; rw [htpc] at hinfl
  simp only [Option.getD_some] at h3m h2m h5m h10m hinfl
  obtain ⟨-, w3, w2, w5, w10, wtp, -, -⟩ := hwf
  have l3 : r3.length = m.idx.length := w3 r3 h3c
  have l2 : r2.length = m.idx.length := w2 r2 h2
  have l5 : r5.length = m.idx.length := w5 r5 h5
  have l10 : r10.length = m.idx.length := w10 r10 h10
  have ltp : tp.length = m.idx.length := wtp tp htpc
  have hrs_mem : ∀ x ∈ emaFull (alphaOf (p.hl_SHORT.getD 3)) r3, x = rr :=
    emaFull_const h3m
  have hraw_mem : ∀ x ∈ zipWith3R (fun a b c2 => 0.2 * a + 0.4 * b + 0.4 * c2) r2 r5 r10,
      x = rr := by
    intro x hx
    obtain ⟨a, ha, b, hb, c2, hc2, hx2⟩ := zipWith3R_mem hx
    rw [hx2, h2m a ha, h5m b hb, h10m c2 hc2]
    ring_nf
  have hrnb_mem : ∀ x ∈ emaFull (alphaOf (p.hl_NB.getD 24))
      (zipWith3R (fun a b c2 => 0.2 * a + 0.4 * b + 0.4 * c2) r2 r5 r10), x = rr :=
    emaFull_const hraw_mem
  have lrs : (emaFull (alphaOf (p.hl_SHORT.getD 3)) r3).length = m.idx.length := by
    rw [emaFull_length, l3]
  have lraw : (zipWith3R (fun a b c2 => 0.2 * a + 0.4 * b + 0.4 * c2) r2 r5 r10).length =
      m.idx.length := by
    rw [zipWith3R_length, l2, l5, l10]
    omega
  have lrnb : (emaFull (alphaOf (p.hl_NB.getD 24))
      (zipWith3R (fun a b c2 => 0.2 * a + 0.4 * b + 0.4 * c2) r2 r5 r10)).length =
      m.idx.length := by
    rw [emaFull_length, lraw]
  have grs : ∀ i, i < m.idx.length →
      (emaFull (alphaOf (p.hl_SHORT.getD 3)) r3).getD (0 + i) 0 = rr := by
    intro i hi
    exact hrs_mem _ (getD_mem _ 0 (by omega))
  have grnb : ∀ i, i < m.idx.length →
      (emaFull (alphaOf (p.hl_NB.getD 24))
        (zipWith3R (fun a b c2 => 0.2 * a + 0.4 * b + 0.4 * c2) r2 r5 r10)).getD (0 + i) 0 =
        rr := by
    intro i hi
    exact hrnb_mem _ (getD_mem _ 0 (by omega))
  have gtp : ∀ i, i < m.idx.length → tp.getD (0 + i) 0 = 0 := by
    intro i hi
    exact hinfl _ (getD_mem _ 0 (by omega))
  rw [hlen] at ht
  rw [hrows, hsT, hob]
  exact forecastSteps_debt_const _ _ tp g (p.share_SHORT.getD 0.25) (p.share_NB.getD 0.6)
    (c.r_tips_coupon.getD 0) rr m.idx.length 0 (debtInit m c) grs grnb gtp t ht

/-! ## Well-formedness of the concrete frames -/

lemma mConst_wf : mConst.WF := by
  refine ⟨by decide, ?_, ?_, ?_, ?_, ?_, ?_, ?_⟩ <;> intro l hl <;>
    first
      | exact Option.noConfusion hl
      | (injection hl with h; subst h; rfl)

/-! ## Witnesses for the forecast claims -/

theorem forecast_trajectory_invariants_witness :
    ∃ rows, forecast_monthly mZero pNone c100 = .ok rows ∧
      ((rows.getD 0 default).netint =
        (rows.getD 0 default).int_short + (rows.getD 0 default).int_nb +
          (rows.getD 0 default).int_tips + (rows.getD 0 default).int_other) ∧
      ((rows.getD 0 default).debt =
        prevDebt rows (debtInit mZero c100) 0 + (rows.getD 0 default).netint) := by
  have hok := forecast_eval (m := mZero) (p := pNone) (c := c100) rfl rfl rfl rfl rfl rfl
    (by norm_num [c100]) (by norm_num [pNone]) (by norm_num [pNone]) (by simp [mZero])
  have ht : 0 < (forecastSteps (emaFull (alphaOf (pNone.hl_SHORT.getD 3)) [0])
      (emaFull (alphaOf (pNone.hl_NB.getD 24))
        (zipWith3R (fun a b c2 => 0.2 * a + 0.4 * b + 0.4 * c2) [0] [0] [0]))
      [0] [1] (pNone.share_SHORT.getD 0.25) (pNone.share_NB.getD 0.6)
      (pNone.share_TIPS.getD 0.1) (pNone.other_bps.getD 0)
      (c100.r_tips_coupon.getD 0) 0 mZero.idx.length
      (c100.debt_public_initial_value.getD 0)).length := by
    rw [forecastSteps_length]
    simp [mZero]
  have h := forecast_trajectory_invariants mZero pNone c100 _ hok 0 ht
  exact ⟨_, hok, h.1, h.2.1⟩

theorem forecast_tips_accrual_witness :
    ∃ rows, forecast_monthly mZero pNone c100 = .ok rows ∧
      (rows.getD 0 default).int_tips =
        ((mZero.pce_infl_m.getD []).getD 0 0 + c100.r_tips_coupon.getD 0 / 12) *
          prevDebt rows (debtInit mZero c100) 0 * pNone.share_TIPS.getD 0.1 := by
  have hok := forecast_eval (m := mZero) (p := pNone) (c := c100) rfl rfl rfl rfl rfl rfl
    (by norm_num [c100]) (by norm_num [pNone]) (by norm_num [pNone]) (by simp [mZero])
  have ht : 0 < (forecastSteps (emaFull (alphaOf (pNone.hl_SHORT.getD 3)) [0])
      (emaFull (alphaOf (pNone.hl_NB.getD 24))
        (zipWith3R (fun a b c2 => 0.2 * a + 0.4 * b + 0.4 * c2) [0] [0] [0]))
      [0] [1] (pNone.share_SHORT.getD 0.25) (pNone.share_NB.getD 0.6)
      (pNone.share_TIPS.getD 0.1) (pNone.other_bps.getD 0)
      (c100.r_tips_coupon.getD 0) 0 mZero.idx.length
      (c100.debt_public_initial_value.getD 0)).length := by
    rw [forecastSteps_length]
    simp [mZero]
  exact ⟨_, hok, (forecast_tips_accrual mZero pNone c100 _ hok 0 ht).1⟩

theorem forecast_constant_rate_closed_form_witness :
    ∃ rows, forecast_monthly mConst pNoTips c100 = .ok rows ∧ rows.length = 2 ∧
      ∀ t, t < rows.length →
        (rows.getD t default).debt =
          debtInit mConst c100 *
            (1 + 1 * (pNoTips.share_SHORT.getD 0.25 + pNoTips.share_NB.getD 0.6) / 12) ^
              (t + 1) := by
  have hok := forecast_eval (m := mConst) (p := pNoTips) (c := c100) rfl rfl rfl rfl rfl rfl
    (by norm_num [c100]) (by norm_num [pNoTips]) (by norm_num [pNoTips]) (by simp [mConst])
  refine ⟨_, hok, ?_, ?_⟩
  · rw [forecastSteps_length]
    simp [mConst]
  · intro t ht
    exact forecast_constant_rate_closed_form mConst pNoTips c100 _ 1 hok mConst_wf
      (by simp [mConst]) (by simp [mConst]) (by simp [mConst]) (by simp [mConst])
      (by simp [mConst]) rfl rfl rfl t ht

/-! ## Missing-column behaviour (C8) -/

lemma hlGrid_eq : hlGrid = [((3 : ℝ), (12 : ℝ)), (3, 18), (3, 24), (3, 30), (6, 12),
    (6, 18), (6, 24), (6, 30), (12, 12), (12, 18), (12, 24), (12, 30)] := rfl

lemma design_matrix_missing (m : MacroFrame) (hs hnb : ℝ) (hmiss : MissingRequired m) :
    ∃ e, _design_matrix m hs hnb = .error e := by
  unfold _design_matrix
  split
  · exact ⟨_, rfl⟩
  split
  · exact ⟨_, rfl⟩
  split
  · rcases hmiss with h | h | h | h | h | h <;> simp_all
  · exact ⟨_, rfl⟩

lemma evalPair_missing (ols : OlsFn) (y : List ℝ) (m : MacroFrame) (d0 : ℝ)
    (pr : ℝ × ℝ) (hmiss : MissingRequired m) : ∃ e, evalPair ols y m d0 pr = .error e := by
  obtain ⟨e, he⟩ := design_matrix_missing m pr.1 pr.2 hmiss
  exact ⟨e, by simp only [evalPair, he]⟩

lemma gridRun_error_head {ev : ℝ × ℝ → Except String (ℝ × CalParams)} {pr : ℝ × ℝ}
    {rest : List (ℝ × ℝ)} {b : Option BestSt} {e : String} (h : ev pr = .error e) :
    gridRun ev (pr :: rest) b = .error e := by
  simp [gridRun, h]

lemma calibrate_missing (ols : OlsFn) (ieod : List (ℤ × ℝ)) (m : MacroFrame) (c : Config)
    (hmiss : MissingRequired m) : ∃ e, calibrate_params ols ieod m c = .error e := by
  by_cases hcfg : c.debt_public_initial_value.getD 0 ≤ 0
  · cases hgdp : m.nominal_gdp with
    | none => exact ⟨"KeyError: nominal_gdp", by simp [calibrate_params, hcfg, hgdp]⟩
    | some g =>
      cases ghd : g.head? with
      | none =>
        exact ⟨"IndexError: index 0 is out of bounds",
          by simp [calibrate_params, hcfg, hgdp, ghd]⟩
      | some v =>
        obtain ⟨e, he⟩ := evalPair_missing ols (m.idx.map (lookupR ieod)) m v (3, 12) hmiss
        refine ⟨e, ?_⟩
        simp only [calibrate_params, hcfg, hgdp, ghd, hlGrid_eq, if_true]
        rw [gridRun_error_head he]
  · obtain ⟨e, he⟩ := evalPair_missing ols (m.idx.map (lookupR ieod)) m
      (c.debt_public_initial_value.getD 0) (3, 12) hmiss
    refine ⟨e, ?_⟩
    simp only [calibrate_params, hcfg, hlGrid_eq, if_false]
    rw [gridRun_error_head he]

lemma forecast_missing_error (m : MacroFrame) (p : ParamsIn) (c : Config)
    (hmiss : MissingRequired m)
    (hnc : ¬(OnlyGdpMissing m ∧ m.idx = [] ∧ 0 < c.debt_public_initial_value.getD 0)) :
    ∃ e, forecast_monthly m p c = .error e := by
  by_cases h5 : m.r3m = none ∨ m.r2y = none ∨ m.r5y = none ∨ m.r10y = none ∨
      m.pce_infl_m = none
  · -- one of the unconditionally read columns is missing
    by_cases hcfg : c.debt_public_initial_value.getD 0 ≤ 0
    · cases hgdp : m.nominal_gdp with
      | none => exact ⟨"KeyError: nominal_gdp", by simp [forecast_monthly, hcfg, hgdp]⟩
      | some g =>
        cases ghd : g.head? with
        | none =>
          exact ⟨"IndexError: index 0 is out of bounds",
            by simp [forecast_monthly, hcfg, hgdp, ghd]⟩
        | some v =>
          cases hhs : half_life_to_alpha (p.hl_SHORT.getD 3) with
          | error e => exact ⟨e, by simp [forecast_monthly, hcfg, hgdp, ghd, hhs]⟩
          | ok a1 =>
            cases hhnb : half_life_to_alpha (p.hl_NB.getD 24) with
            | error e =>
              exact ⟨e, by simp [forecast_monthly, hcfg, hgdp, ghd, hhs, hhnb]⟩
            | ok a2 =>
              refine ⟨"KeyError: missing macro column", ?_⟩
              rcases h5 with h | h | h | h | h <;>
                simp only [forecast_monthly, hcfg, hgdp, ghd, hhs, hhnb, h, if_true] <;>
                split <;> simp_all
    · cases hhs : half_life_to_alpha (p.hl_SHORT.getD 3) with
      | error e => exact ⟨e, by simp [forecast_monthly, hcfg, hhs]⟩
      | ok a1 =>
        cases hhnb : half_life_to_alpha (p.hl_NB.getD 24) with
        | error e => exact ⟨e, by simp [forecast_monthly, hcfg, hhs, hhnb]⟩
        | ok a2 =>
          refine ⟨"KeyError: missing macro column", ?_⟩
          rcases h5 with h | h | h | h | h <;>
            simp only [forecast_monthly, hcfg, hhs, hhnb, h, if_false] <;>
            split <;> simp_all
  · -- all five rate/inflation columns present, so nominal_gdp is the missing one
    push_neg at h5
    obtain ⟨n3, n2, n5, n10, ntp⟩ := h5
    have hgdpn : m.nominal_gdp = none := by
      rcases hmiss with h | h | h | h | h | h
      · exact absurd h n3
      · exact absurd h n2
      · exact absurd h n5
      · exact absurd h n10
      · exact absurd h ntp
      · exact h
    by_cases hcfg : c.debt_public_initial_value.getD 0 ≤ 0
    · exact ⟨"KeyError: nominal_gdp", by simp [forecast_monthly, hcfg, hgdpn]⟩
    · have honly : OnlyGdpMissing m := ⟨n3, n2, n5, n10, ntp, hgdpn⟩
      have hidx : m.idx ≠ [] := fun he => hnc ⟨honly, he, not_le.mp hcfg⟩
      have hlen : m.idx.length ≠ 0 := by
        simpa [List.length_eq_zero] using hidx
      obtain ⟨r3, e3⟩ := Option.ne_none_iff_exists'.mp n3
      obtain ⟨r2, e2⟩ := Option.ne_none_iff_exists'.mp n2
      obtain ⟨r5, e5⟩ := Option.ne_none_iff_exists'.mp n5
      obtain ⟨r10, e10⟩ := Option.ne_none_iff_exists'.mp n10
      obtain ⟨tp, etp⟩ := Option.ne_none_iff_exists'.mp ntp
      cases hhs : half_life_to_alpha (p.hl_SHORT.getD 3) with
      | error e => exact ⟨e, by simp [forecast_monthly, hcfg, hhs]⟩
      | ok a1 =>
        cases hhnb : half_life_to_alpha (p.hl_NB.getD 24) with
        | error e => exact ⟨e, by simp [forecast_monthly, hcfg, hhs, hhnb]⟩
        | ok a2 =>
          obtain ⟨hp1, ha1⟩ := hlta_ok_inv hhs
          obtain ⟨hp2, ha2⟩ := hlta_ok_inv hhnb
          subst ha1; subst ha2
          refine ⟨"KeyError: nominal_gdp", ?_⟩
          simp [forecast_monthly, hcfg, hhs, hhnb, e3, e2, e5, e10, etp, hgdpn, hlen,
            ema_ok (alphaOf_pos hp1) (alphaOf_le_one _),
            ema_ok (alphaOf_pos hp2) (alphaOf_le_one _), weighted_curve]

/-- C8 counterexample: a zero-row frame with every required column except
    `nominal_gdp`, under a positive configured initial debt, makes the
    forecast engine return an empty table without raising any error. -/
theorem forecast_missing_gdp_returns_ok :
    mNoGdp.nominal_gdp = none ∧ forecast_monthly mNoGdp pNone c100 = .ok [] := by
  refine ⟨rfl, ?_⟩
  have e3 : half_life_to_alpha 3 = .ok (alphaOf 3) := hlta_ok (by norm_num)
  have e24 : half_life_to_alpha 24 = .ok (alphaOf 24) := hlta_ok (by norm_num)
  simp [forecast_monthly, mNoGdp, pNone, c100, e3, e24,
    ema_ok (alphaOf_pos (by norm_num : (0 : ℝ) < 3)) (alphaOf_le_one _),
    ema_ok (alphaOf_pos (by norm_num : (0 : ℝ) < 24)) (alphaOf_le_one _),
    weighted_curve, zipWith3R, emaFull, show ¬(100 : ℝ) ≤ 0 by norm_num]

/-- C8 (amended): for every MacroSeries missing a required column, the
    calibrator always raises, and the forecast engine raises except in the
    single corner where only `nominal_gdp` is missing, the frame has zero
    rows and the configured initial debt is positive (with valid half-life
    parameters), in which case it returns an empty table instead. -/
theorem missing_column_errors (m : MacroFrame) (p : ParamsIn) (c : Config)
    (ols : OlsFn) (ieod : List (ℤ × ℝ)) (hmiss : MissingRequired m) :
    (∃ e, calibrate_params ols ieod m c = .error e) ∧
    (¬(OnlyGdpMissing m ∧ m.idx = [] ∧ 0 < c.debt_public_initial_value.getD 0) →
      ∃ e, forecast_monthly m p c = .error e) ∧
    ((OnlyGdpMissing m ∧ m.idx = [] ∧ 0 < c.debt_public_initial_value.getD 0) →
      0 < p.hl_SHORT.getD 3 → 0 < p.hl_NB.getD 24 →
      forecast_monthly m p c = .ok []) := by
  refine ⟨calibrate_missing ols ieod m c hmiss,
    fun hnc => forecast_missing_error m p c hmiss hnc, ?_⟩
  rintro ⟨⟨n3, n2, n5, n10, ntp, hgdpn⟩, hidx, hcfg⟩ hp1 hp2
  obtain ⟨r3, e3⟩ := Option.ne_none_iff_exists'.mp n3
  obtain ⟨r2, e2⟩ := Option.ne_none_iff_exists'.mp n2
  obtain ⟨r5, e5⟩ := Option.ne_none_iff_exists'.mp n5
  obtain ⟨r10, e10⟩ := Option.ne_none_iff_exists'.mp n10
  obtain ⟨tp, etp⟩ := Option.ne_none_iff_exists'.mp ntp
  simp [forecast_monthly, not_le.mpr hcfg, hlta_ok hp1, hlta_ok hp2,
    e3, e2, e5, e10, etp, hidx,
    ema_ok (alphaOf_pos hp1) (alphaOf_le_one _),
    ema_ok (alphaOf_pos hp2) (alphaOf_le_one _), weighted_curve]

theorem missing_column_errors_witness :
    (∃ e, calibrate_params olsZero [] mNoR3m c100 = .error e) ∧
    (∃ e, forecast_monthly mNoR3m pNone c100 = .error e) := by
  have h := missing_column_errors mNoR3m pNone c100 olsZero [] (Or.inl rfl)
  refine ⟨h.1, h.2.1 ?_⟩
  rintro ⟨⟨habs, -⟩, -⟩
  exact habs rfl

/-! ## Grid-search fold analysis (C3, C4) -/

lemma getD_map_lt {α β : Type} (f : α → β) : ∀ (l : List α) (j : ℕ) (d1 : β) (d2 : α),
    j < l.length → (l.map f).getD j d1 = f (l.getD j d2) := by
  intro l
  induction l with
  | nil => intro j d1 d2 hj; simp at hj
  | cons x xs ih =>
    intro j d1 d2 hj
    cases j with
    | zero => rfl
    | succ j2 => exact ih j2 d1 d2 (by simpa using hj)

lemma gridRun_ok_sound {ev : ℝ × ℝ → Except String (ℝ × CalParams)} :
    ∀ (l : List (ℝ × ℝ)) (b : Option BestSt) (r : Option BestSt),
      gridRun ev l b = .ok r →
      ∃ vl : List ((ℝ × ℝ) × ℝ × CalParams), vl.map Prod.fst = l ∧
        (∀ x ∈ vl, ev x.1 = .ok x.2) ∧ r = bestOf b vl := by
  intro l
  induction l with
  | nil =>
    intro b r h
    refine ⟨[], rfl, by simp, ?_⟩
    simpa [gridRun, bestOf] using h.symm
  | cons pr rest ih =>
    intro b r h
    cases hev : ev pr with
    | error e => simp [gridRun, hev] at h
    | ok sp =>
      simp only [gridRun, hev] at h
      obtain ⟨vl, hmap, hev2, hr⟩ := ih (some (updateBest pr sp.1 sp.2 b)) r h
      refine ⟨(pr, sp) :: vl, by simp [hmap], ?_, ?_⟩
      · intro x hx
        rcases List.mem_cons.mp hx with h1 | h1
        · subst h1; exact hev
        · exact hev2 x h1
      · simpa [bestOf] using hr

lemma bestOf_some_spec :
    ∀ (vl : List ((ℝ × ℝ) × ℝ × CalParams)) (b : BestSt),
      ∃ r, bestOf (some b) vl = some r ∧
        ((r = b ∧ ∀ x ∈ vl, b.1 ≤ x.2.1) ∨
          ∃ k, k < vl.length ∧ r = mkSt (vl.getD k default) ∧ r.1 < b.1 ∧
            (∀ j, j < k → r.1 < (vl.getD j default).2.1) ∧
            (∀ j, j < vl.length → r.1 ≤ (vl.getD j default).2.1)) := by
  intro vl
  induction vl with
  | nil => intro b; exact ⟨b, rfl, Or.inl ⟨rfl, by simp⟩⟩
  | cons x rest ih =>
    intro b
    by_cases hlt : x.2.1 < b.1
    · have hupd : updateBest x.1 x.2.1 x.2.2 (some b) = mkSt x := by
        simp [updateBest, mkSt, hlt]
      obtain ⟨r, hr, hspec⟩ := ih (mkSt x)
      refine ⟨r, by simpa [bestOf, hupd] using hr, Or.inr ?_⟩
      rcases hspec with ⟨rb, hall⟩ | ⟨k, hk, hrk, hrlt, hbefore, hallle⟩
      · refine ⟨0, by simp, by simpa using rb, by rw [rb]; exact hlt, ?_, ?_⟩
        · intro j hj; omega
        · intro j hj
          cases j with
          | zero => simp [rb, mkSt]
          | succ j2 =>
            have hj2 : j2 < rest.length := by simpa using hj
            exact rb ▸ hall _ (getD_mem rest default hj2)
      · refine ⟨k + 1, by simpa using hk, by simpa using hrk,
          lt_trans hrlt ((by simp [mkSt] : (mkSt x).1 = x.2.1) ▸ hlt), ?_, ?_⟩
        · intro j hj
          cases j with
          | zero => simpa [mkSt] using hrlt
          | succ j2 => simpa using hbefore j2 (by omega)
        · intro j hj
          cases j with
          | zero => simpa [mkSt] using le_of_lt hrlt
          | succ j2 => simpa using hallle j2 (by simpa using hj)
    · have hupd : updateBest x.1 x.2.1 x.2.2 (some b) = b := by
        simp [updateBest, hlt]
      obtain ⟨r, hr, hspec⟩ := ih b
      refine ⟨r, by simpa [bestOf, hupd] using hr, ?_⟩
      rcases hspec with ⟨rb, hall⟩ | ⟨k, hk, hrk, hrlt, hbefore, hallle⟩
      · refine Or.inl ⟨rb, ?_⟩
        intro y hy
        rcases List.mem_cons.mp hy with h1 | h1
        · subst h1; exact not_lt.mp hlt
        · exact hall y h1
      · refine Or.inr ⟨k + 1, by simpa using hk, by simpa using hrk, hrlt, ?_, ?_⟩
        · intro j hj
          cases j with
          | zero => simpa using lt_of_lt_of_le hrlt (not_lt.mp hlt)
          | succ j2 => simpa using hbefore j2 (by omega)
        · intro j hj
          cases j with
          | zero => simpa using le_of_lt (lt_of_lt_of_le hrlt (not_lt.mp hlt))
          | succ j2 => simpa using hallle j2 (by simpa using hj)

lemma bestOf_none_spec (vl : List ((ℝ × ℝ) × ℝ × CalParams)) (hne : vl ≠ []) :
    ∃ r, bestOf none vl = some r ∧ ∃ k, k < vl.length ∧ r = mkSt (vl.getD k default) ∧
      (∀ j, j < k → r.1 < (vl.getD j default).2.1) ∧
      (∀ j, j < vl.length → r.1 ≤ (vl.getD j default).2.1) := by
  cases vl with
  | nil => exact absurd rfl hne
  | cons x rest =>
    have hupd : updateBest x.1 x.2.1 x.2.2 none = mkSt x := rfl
    obtain ⟨r, hr, hspec⟩ := bestOf_some_spec rest (mkSt x)
    refine ⟨r, by simpa [bestOf, hupd] using hr, ?_⟩
    rcases hspec with ⟨rb, hall⟩ | ⟨k, hk, hrk, hrlt, hbefore, hallle⟩
    · refine ⟨0, by simp, by simpa using rb, ?_, ?_⟩
      · intro j hj; omega
      · intro j hj
        cases j with
        | zero => simp [rb, mkSt]
        | succ j2 =>
          have hj2 : j2 < rest.length := by simpa using hj
          exact rb ▸ hall _ (getD_mem rest default hj2)
    · refine ⟨k + 1, by simpa using hk, by simpa using hrk, ?_, ?_⟩
      · intro j hj
        cases j with
        | zero => simpa [mkSt] using hrlt
        | succ j2 => simpa using hbefore j2 (by omega)
      · intro j hj
        cases j with
        | zero => simpa [mkSt] using le_of_lt hrlt
        | succ j2 => simpa using hallle j2 (by simpa using hj)

/-- Every successful calibration run resolves an initial debt stock, evaluates
    every grid cell successfully, and returns the augmented fold winner. -/
lemma calibrate_ok_elim {ols : OlsFn} {ieod : List (ℤ × ℝ)} {m : MacroFrame}
    {c : Config} {out : CalibOut} (h : calibrate_params ols ieod m c = .ok out) :
    ∃ d0, ((0 < c.debt_public_initial_value.getD 0 →
            d0 = c.debt_public_initial_value.getD 0) ∧
           (c.debt_public_initial_value.getD 0 ≤ 0 →
            some d0 = (m.nominal_gdp.getD []).head?)) ∧
      ∃ vl : List ((ℝ × ℝ) × ℝ × CalParams), vl.map Prod.fst = hlGrid ∧
        (∀ x ∈ vl, evalPair ols (m.idx.map (lookupR ieod)) m d0 x.1 = .ok x.2) ∧
        ∃ r, bestOf none vl = some r ∧ out = toOut r.2.2.2 r.2.1 r.2.2.1 := by
  simp only [calibrate_params] at h
  split at h
  · exact absurd h (by simp)
  case _ d0 hd0 =>
  have hchar : (0 < c.debt_public_initial_value.getD 0 →
      d0 = c.debt_public_initial_value.getD 0) ∧
      (c.debt_public_initial_value.getD 0 ≤ 0 →
        some d0 = (m.nominal_gdp.getD []).head?) := by
    by_cases hcfg : c.debt_public_initial_value.getD 0 ≤ 0
    · rw [if_pos hcfg] at hd0
      cases hgdp : m.nominal_gdp with
      | none => rw [hgdp] at hd0; simp at hd0
      | some g =>
        rw [hgdp] at hd0
        cases g with
        | nil => simp at hd0
        | cons v rest =>
          have hv : v = d0 := by simpa using hd0
          exact ⟨fun hpos => absurd hcfg (not_le.mpr hpos),
            fun _ => by simp [hgdp, hv]⟩
    · rw [if_neg hcfg] at hd0
      have hv : c.debt_public_initial_value.getD 0 = d0 := by simpa using hd0
      exact ⟨fun _ => hv.symm, fun hle => absurd hle hcfg⟩
  refine ⟨d0, hchar, ?_⟩
  split at h
  · exact absurd h (by simp)
  · exact absurd h (by simp)
  case _ b hb =>
  obtain ⟨vl, hmap, hev, hbest⟩ :=
    gridRun_ok_sound hlGrid none (some b) hb
  refine ⟨vl, hmap, hev, b, hbest.symm, ?_⟩
  have hout : toOut b.2.2.2 b.2.1 b.2.2.1 = out := by simpa [toOut] using h
  exact hout.symm

/-- Inside a successful grid cell, the returned parameters are
    `_coefs_to_params` of some coefficient vector at the resolved initial
    debt stock. -/
lemma evalPair_ok_elim {ols : OlsFn} {y : List ℝ} {m : MacroFrame} {d0 : ℝ}
    {pr : ℝ × ℝ} {v : ℝ × CalParams} (h : evalPair ols y m d0 pr = .ok v) :
    ∃ coef, v.2 = _coefs_to_params coef d0 := by
  simp only [evalPair] at h
  split at h
  · exact absurd h (by simp)
  case _ res X a gs hd =>
    have hv : v = ((ols y X).2, _coefs_to_params
        ((ols y X).1.1 - a * (ols y X).1.2.1, (ols y X).1.2.1,
          (ols y X).1.2.2.1, (ols y X).1.2.2.2 / gs) d0) := by
      simpa using h.symm
    exact ⟨_, by rw [hv]⟩

/-- Arithmetic properties of `_coefs_to_params`: the clamped shares, the
    `other_bps` floor, and the proportional rescale when the clamped shares
    sum above 1. -/
lemma coefs_to_params_char (coef : ℝ × ℝ × ℝ × ℝ) (d : ℝ) :
    (_coefs_to_params coef d).other_bps = max 0 (coef.2.2.2 * 12 * 10000) ∧
    (1 < clampShare coef.1 d + clampShare coef.2.1 d + clampShare coef.2.2.1 d →
      (_coefs_to_params coef d).share_SHORT = clampShare coef.1 d *
        (1 / (clampShare coef.1 d + clampShare coef.2.1 d + clampShare coef.2.2.1 d)) ∧
      (_coefs_to_params coef d).share_NB = clampShare coef.2.1 d *
        (1 / (clampShare coef.1 d + clampShare coef.2.1 d + clampShare coef.2.2.1 d)) ∧
      (_coefs_to_params coef d).share_TIPS = clampShare coef.2.2.1 d *
        (1 / (clampShare coef.1 d + clampShare coef.2.1 d + clampShare coef.2.2.1 d)) ∧
      (_coefs_to_params coef d).share_SHORT + (_coefs_to_params coef d).share_NB +
        (_coefs_to_params coef d).share_TIPS = 1) ∧
    (¬1 < clampShare coef.1 d + clampShare coef.2.1 d + clampShare coef.2.2.1 d →
      (_coefs_to_params coef d).share_SHORT = clampShare coef.1 d ∧
      (_coefs_to_params coef d).share_NB = clampShare coef.2.1 d ∧
      (_coefs_to_params coef d).share_TIPS = clampShare coef.2.2.1 d) := by
  have hc1 : (0 : ℝ) ≤ clampShare coef.1 d := le_max_left 0 _
  have hc2 : (0 : ℝ) ≤ clampShare coef.2.1 d := le_max_left 0 _
  have hc3 : (0 : ℝ) ≤ clampShare coef.2.2.1 d := le_max_left 0 _
  simp only [_coefs_to_params, clampShare]
  split
  case isTrue hsum =>
    have hpos : (0 : ℝ) < max 0 (min 1 (12 * coef.1 / max d 1)) +
        max 0 (min 1 (12 * coef.2.1 / max d 1)) +
        max 0 (min 1 (12 * coef.2.2.1 / max d 1)) := lt_trans one_pos hsum
    refine ⟨rfl, fun _ => ⟨rfl, rfl, rfl, ?_⟩, fun hn => absurd hsum hn⟩
    field_simp
  case isFalse hsum =>
    exact ⟨rfl, fun hpos => absurd hpos hsum, fun _ => ⟨rfl, rfl, rfl⟩⟩

/-- The clamped shares lie in [0, 1] and their (possibly rescaled) sum is at
    most 1. -/
lemma coefs_to_params_bounds (coef : ℝ × ℝ × ℝ × ℝ) (d : ℝ) :
    (0 ≤ (_coefs_to_params coef d).share_SHORT ∧ (_coefs_to_params coef d).share_SHORT ≤ 1) ∧
    (0 ≤ (_coefs_to_params coef d).share_NB ∧ (_coefs_to_params coef d).share_NB ≤ 1) ∧
    (0 ≤ (_coefs_to_params coef d).share_TIPS ∧ (_coefs_to_params coef d).share_TIPS ≤ 1) ∧
    (_coefs_to_params coef d).share_SHORT + (_coefs_to_params coef d).share_NB +
      (_coefs_to_params coef d).share_TIPS ≤ 1 := by
  have hc1 : (0 : ℝ) ≤ max 0 (min 1 (12 * coef.1 / max d 1)) := le_max_left 0 _
  have hc2 : (0 : ℝ) ≤ max 0 (min 1 (12 * coef.2.1 / max d 1)) := le_max_left 0 _
  have hc3 : (0 : ℝ) ≤ max 0 (min 1 (12 * coef.2.2.1 / max d 1)) := le_max_left 0 _
  have hb1 : max 0 (min 1 (12 * coef.1 / max d 1)) ≤ 1 :=
    max_le (by norm_num) (min_le_left 1 _)
  have hb2 : max 0 (min 1 (12 * coef.2.1 / max d 1)) ≤ 1 :=
    max_le (by norm_num) (min_le_left 1 _)
  have hb3 : max 0 (min 1 (12 * coef.2.2.1 / max d 1)) ≤ 1 :=
    max_le (by norm_num) (min_le_left 1 _)
  simp only [_coefs_to_params]
  split
  case isTrue hsum =>
    have hpos : (0 : ℝ) < max 0 (min 1 (12 * coef.1 / max d 1)) +
        max 0 (min 1 (12 * coef.2.1 / max d 1)) +
        max 0 (min 1 (12 * coef.2.2.1 / max d 1)) := lt_trans one_pos hsum
    have hinv : (0 : ℝ) ≤ 1 / (max 0 (min 1 (12 * coef.1 / max d 1)) +
        max 0 (min 1 (12 * coef.2.1 / max d 1)) +
        max 0 (min 1 (12 * coef.2.2.1 / max d 1))) := by positivity
    have heq : max 0 (min 1 (12 * coef.1 / max d 1)) *
        (1 / (max 0 (min 1 (12 * coef.1 / max d 1)) +
          max 0 (min 1 (12 * coef.2.1 / max d 1)) +
          max 0 (min 1 (12 * coef.2.2.1 / max d 1)))) +
        max 0 (min 1 (12 * coef.2.1 / max d 1)) *
        (1 / (max 0 (min 1 (12 * coef.1 / max d 1)) +
          max 0 (min 1 (12 * coef.2.1 / max d 1)) +
          max 0 (min 1 (12 * coef.2.2.1 / max d 1)))) +
        max 0 (min 1 (12 * coef.2.2.1 / max d 1)) *
        (1 / (max 0 (min 1 (12 * coef.1 / max d 1)) +
          max 0 (min 1 (12 * coef.2.1 / max d 1)) +
          max 0 (min 1 (12 * coef.2.2.1 / max d 1)))) = 1 := by
      field_simp
    refine ⟨⟨mul_nonneg hc1 hinv, ?_⟩, ⟨mul_nonneg hc2 hinv, ?_⟩,
      ⟨mul_nonneg hc3 hinv, ?_⟩, le_of_eq heq⟩
    · nlinarith [mul_nonneg hc2 hinv, mul_nonneg hc3 hinv]
    · nlinarith [mul_nonneg hc1 hinv, mul_nonneg hc3 hinv]
    · nlinarith [mul_nonneg hc1 hinv, mul_nonneg hc2 hinv]
  case isFalse hsum =>
    exact ⟨⟨hc1, hb1⟩, ⟨hc2, hb2⟩, ⟨hc3, hb3⟩, not_lt.mp hsum⟩

/-- C4: the grid search evaluates exactly the 12 half-life pairs
    {3,6,12} x {12,18,24,30} in `itertools.product` order; the returned set
    comes from the pair with minimum residual sum of squares, replacement
    being strictly-less (so the first-iterated pair wins exact ties), and the
    winner is augmented with its hl_SHORT and hl_NB. -/
theorem calibrate_grid_argmin (ols : OlsFn) (ieod : List (ℤ × ℝ)) (m : MacroFrame)
    (c : Config) (out : CalibOut) (h : calibrate_params ols ieod m c = .ok out) :
    hlGrid = [((3 : ℝ), (12 : ℝ)), (3, 18), (3, 24), (3, 30), (6, 12), (6, 18), (6, 24),
      (6, 30), (12, 12), (12, 18), (12, 24), (12, 30)] ∧
    ∃ (d0 : ℝ) (res : List (ℝ × CalParams)), res.length = hlGrid.length ∧
      (∀ j, j < hlGrid.length →
        evalPair ols (m.idx.map (lookupR ieod)) m d0 (hlGrid.getD j (0, 0)) =
          .ok (res.getD j (0, default))) ∧
      ∃ k, k < hlGrid.length ∧
        out = toOut (res.getD k (0, default)).2 (hlGrid.getD k (0, 0)).1
          (hlGrid.getD k (0, 0)).2 ∧
        (∀ j, j < hlGrid.length →
          (res.getD k (0, default)).1 ≤ (res.getD j (0, default)).1) ∧
        (∀ j, j < k → (res.getD k (0, default)).1 < (res.getD j (0, default)).1) := by
  obtain ⟨d0, -, vl, hmap, hev, r, hbest, hout⟩ := calibrate_ok_elim h
  have hlenvl : vl.length = hlGrid.length := by
    rw [← hmap, List.length_map]
  have hvlne : vl ≠ [] := by
    intro hcon
    rw [hcon] at hmap
    exact absurd hmap.symm (by rw [hlGrid_eq]; simp)
  obtain ⟨r2, hr2, k, hk, hrk, hbefore, hallle⟩ := bestOf_none_spec vl hvlne
  have hrr : r = r2 := by rw [hbest] at hr2; exact (Option.some.injEq _ _).mp hr2
  subst hrr
  have hpair : ∀ j, j < hlGrid.length → hlGrid.getD j (0, 0) = (vl.getD j default).1 := by
    intro j hj
    rw [← hmap]
    exact getD_map_lt Prod.fst vl j (0, 0) default (by omega)
  have hres : ∀ j, j < hlGrid.length →
      (vl.map Prod.snd).getD j (0, default) = (vl.getD j default).2 := by
    intro j hj
    exact getD_map_lt Prod.snd vl j (0, default) default (by omega)
  refine ⟨hlGrid_eq, d0, vl.map Prod.snd, by rw [List.length_map, hlenvl], ?_, k,
    by omega, ?_, ?_, ?_⟩
  · intro j hj
    rw [hpair j hj, hres j hj]
    exact hev _ (getD_mem vl default (by omega))
  · rw [hout, hrk, hpair k (by omega), hres k (by omega)]
    rfl
  · intro j hj
    rw [hres k (by omega), hres j hj]
    have hle := hallle j (by omega)
    rw [hrk] at hle
    simpa [mkSt] using hle
  · intro j hj
    rw [hres k (by omega), hres j (by omega)]
    have hlt := hbefore j hj
    rw [hrk] at hlt
    simpa [mkSt] using hlt

/-- C3: every parameter set returned by the calibrator has its three shares in
    [0,1] with sum at most 1 + 1e-8; each share is the clamp
    `clamp(12*beta/max(debtInitial,1), 0, 1)` of some fitted coefficient,
    `other_bps = max(0, gamma*12*10000)`, and when the clamped shares sum
    above 1 they are all rescaled by the same factor to sum to exactly 1. -/
theorem calibrate_share_constraints (ols : OlsFn) (ieod : List (ℤ × ℝ)) (m : MacroFrame)
    (c : Config) (out : CalibOut) (h : calibrate_params ols ieod m c = .ok out) :
    (0 ≤ out.share_SHORT ∧ out.share_SHORT ≤ 1) ∧
    (0 ≤ out.share_NB ∧ out.share_NB ≤ 1) ∧
    (0 ≤ out.share_TIPS ∧ out.share_TIPS ≤ 1) ∧
    out.share_SHORT + out.share_NB + out.share_TIPS ≤ 1 + 1 / 100000000 ∧
    ∃ bs bnb bt gm d,
      ((0 < c.debt_public_initial_value.getD 0 →
        d = c.debt_public_initial_value.getD 0) ∧
       (c.debt_public_initial_value.getD 0 ≤ 0 →
        some d = (m.nominal_gdp.getD []).head?)) ∧
      _coefs_to_params (bs, bnb, bt, gm) d =
        ⟨out.share_SHORT, out.share_NB, out.share_TIPS, out.other_bps⟩ ∧
      out.other_bps = max 0 (gm * 12 * 10000) ∧
      (1 < clampShare bs d + clampShare bnb d + clampShare bt d →
        out.share_SHORT = clampShare bs d *
          (1 / (clampShare bs d + clampShare bnb d + clampShare bt d)) ∧
        out.share_NB = clampShare bnb d *
          (1 / (clampShare bs d + clampShare bnb d + clampShare bt d)) ∧
        out.share_TIPS = clampShare bt d *
          (1 / (clampShare bs d + clampShare bnb d + clampShare bt d)) ∧
        out.share_SHORT + out.share_NB + out.share_TIPS = 1) ∧
      (¬1 < clampShare bs d + clampShare bnb d + clampShare bt d →
        out.share_SHORT = clampShare bs d ∧ out.share_NB = clampShare bnb d ∧
        out.share_TIPS = clampShare bt d) := by
  obtain ⟨d0, hd0char, vl, hmap, hev, r, hbest, hout⟩ := calibrate_ok_elim h
  have hvlne : vl ≠ [] := by
    intro hcon
    rw [hcon] at hmap
    exact absurd hmap.symm (by rw [hlGrid_eq]; simp)
  obtain ⟨r2, hr2, k, hk, hrk, -, -⟩ := bestOf_none_spec vl hvlne
  have hrr : r = r2 := by rw [hbest] at hr2; exact (Option.some.injEq _ _).mp hr2
  subst hrr
  obtain ⟨coef, hcoef⟩ :=
    evalPair_ok_elim (hev _ (getD_mem vl default hk))
  have hprm : out = toOut (_coefs_to_params coef d0) (vl.getD k default).1.1
      (vl.getD k default).1.2 := by
    rw [hout, hrk, ← hcoef]
    rfl
  have hb := coefs_to_params_bounds coef d0
  have hch := coefs_to_params_char coef d0
  have hsS : out.share_SHORT = (_coefs_to_params coef d0).share_SHORT := by
    rw [hprm]; rfl
  have hsN : out.share_NB = (_coefs_to_params coef d0).share_NB := by
    rw [hprm]; rfl
  have hsT : out.share_TIPS = (_coefs_to_params coef d0).share_TIPS := by
    rw [hprm]; rfl
  have hsO : out.other_bps = (_coefs_to_params coef d0).other_bps := by
    rw [hprm]; rfl
  refine ⟨by rw [hsS]; exact hb.1, by rw [hsN]; exact hb.2.1,
    by rw [hsT]; exact hb.2.2.1, ?_, coef.1, coef.2.1, coef.2.2.1, coef.2.2.2, d0,
    hd0char, ?_, ?_, ?_, ?_⟩
  · rw [hsS, hsN, hsT]
    have := hb.2.2.2
    linarith
  · rw [hsS, hsN, hsT, hsO]
  · rw [hsO]
    exact hch.1
  · intro hgt
    obtain ⟨e1, e2, e3, e4⟩ := hch.2.1 hgt
    exact ⟨by rw [hsS]; exact e1, by rw [hsN]; exact e2, by rw [hsT]; exact e3,
      by rw [hsS, hsN, hsT]; exact e4⟩
  · intro hle
    obtain ⟨e1, e2, e3⟩ := hch.2.2 hle
    exact ⟨by rw [hsS]; exact e1, by rw [hsN]; exact e2, by rw [hsT]; exact e3⟩

/-! ## A concrete calibration run (witness input) -/

lemma evalPair_mZero (hs hnb : ℝ) (h1 : 0 < hs) (h2 : 0 < hnb) :
    evalPair olsZero [(0 : ℝ)] mZero 100 (hs, hnb) = .ok (0, ⟨0, 0, 0, 0⟩) := by
  simp [evalPair, _design_matrix, mZero, olsZero, hlta_ok h1, hlta_ok h2,
    ema_ok (alphaOf_pos h1) (alphaOf_le_one _), ema_ok (alphaOf_pos h2) (alphaOf_le_one _),
    weighted_curve, zipWith3R, emaFull, emaRun, dotL, _coefs_to_params]

lemma gridRun_const {ev : ℝ × ℝ → Except String (ℝ × CalParams)} {v : ℝ × CalParams} :
    ∀ (l : List (ℝ × ℝ)) (b : BestSt), (∀ pr ∈ l, ev pr = .ok v) → b.1 = v.1 →
      gridRun ev l (some b) = .ok (some b) := by
  intro l
  induction l with
  | nil => intro b _ _; rfl
  | cons pr rest ih =>
    intro b hall hb
    have hev : ev pr = .ok v := hall pr (by simp)
    have hupd : updateBest pr v.1 v.2 (some b) = b := by
      simp [updateBest, hb, lt_irrefl]
    simp only [gridRun, hev]
    rw [hupd]
    exact ih b (fun q hq => hall q (by simp [hq])) hb

lemma calibrate_mZero :
    calibrate_params olsZero [] mZero c100 = .ok ⟨0, 0, 0, 0, 3, 12⟩ := by
  have hy : mZero.idx.map (lookupR []) = [(0 : ℝ)] := by
    simp [mZero, lookupR]
  have hall : ∀ pr ∈ hlGrid, evalPair olsZero [(0 : ℝ)] mZero 100 pr = .ok (0, ⟨0, 0, 0, 0⟩) := by
    intro pr hpr
    rw [hlGrid_eq] at hpr
    fin_cases hpr <;> exact evalPair_mZero _ _ (by norm_num) (by norm_num)
  have e01 := hall (3, 12) (by rw [hlGrid_eq]; simp)
  have e02 := hall (3, 18) (by rw [hlGrid_eq]; simp)
  have e03 := hall (3, 24) (by rw [hlGrid_eq]; simp)
  have e04 := hall (3, 30) (by rw [hlGrid_eq]; simp)
  have e05 := hall (6, 12) (by rw [hlGrid_eq]; simp)
  have e06 := hall (6, 18) (by rw [hlGrid_eq]; simp)
  have e07 := hall (6, 24) (by rw [hlGrid_eq]; simp)
  have e08 := hall (6, 30) (by rw [hlGrid_eq]; simp)
  have e09 := hall (12, 12) (by rw [hlGrid_eq]; simp)
  have e10 := hall (12, 18) (by rw [hlGrid_eq]; simp)
  have e11 := hall (12, 24) (by rw [hlGrid_eq]; simp)
  have e12 := hall (12, 30) (by rw [hlGrid_eq]; simp)
  simp only [calibrate_params, c100, Option.getD_some, hy, hlGrid_eq]
  rw [if_neg (by norm_num : ¬(100 : ℝ) ≤ 0)]
  simp [gridRun, updateBest, e01, e02, e03, e04, e05, e06, e07, e08, e09, e10, e11, e12]

theorem calibrate_grid_argmin_witness :
    ∃ out, calibrate_params olsZero [] mZero c100 = .ok out ∧
      hlGrid = [((3 : ℝ), (12 : ℝ)), (3, 18), (3, 24), (3, 30), (6, 12), (6, 18), (6, 24),
        (6, 30), (12, 12), (12, 18), (12, 24), (12, 30)] ∧
      ∃ (d0 : ℝ) (res : List (ℝ × CalParams)), res.length = hlGrid.length ∧
        (∀ j, j < hlGrid.length →
          evalPair olsZero (mZero.idx.map (lookupR [])) mZero d0 (hlGrid.getD j (0, 0)) =
            .ok (res.getD j (0, default))) ∧
        ∃ k, k < hlGrid.length ∧
          (⟨0, 0, 0, 0, 3, 12⟩ : CalibOut) = toOut (res.getD k (0, default)).2
            (hlGrid.getD k (0, 0)).1 (hlGrid.getD k (0, 0)).2 ∧
          (∀ j, j < hlGrid.length →
            (res.getD k (0, default)).1 ≤ (res.getD j (0, default)).1) ∧
          (∀ j, j < k → (res.getD k (0, default)).1 < (res.getD j (0, default)).1) := by
  have h := calibrate_grid_argmin olsZero [] mZero c100 _ calibrate_mZero
  exact ⟨_, calibrate_mZero, h.1, h.2⟩

theorem calibrate_share_constraints_witness :
    ∃ out, calibrate_params olsZero [] mZero c100 = .ok out ∧
      0 ≤ out.share_SHORT ∧ out.share_SHORT ≤ 1 ∧
      out.share_SHORT + out.share_NB + out.share_TIPS ≤ 1 + 1 / 100000000 := by
  have h := calibrate_share_constraints olsZero [] mZero c100 _ calibrate_mZero
  exact ⟨_, calibrate_mZero, h.1.1, h.1.2, h.2.2.2.1⟩

/-! ## Year aggregation (C9) -/

/-- C9: year aggregation unions the time indices, fills missing entries with
    zero, groups by the calendar year of the timestamp (shifted forward three
    months in fiscal mode, so Oct-Dec roll into the following label), sums
    within each group, and appends a total column equal to the row-wise sum of
    the named series; in particular six months Oct 2019 - Mar 2020 each valued
    18 give 54 under label 2019 in calendar mode and 108 under label 2020 in
    fiscal mode. -/
theorem aggregate_by_year_spec :
    (∀ (sm : List (String × List (ℤ × ℚ))) (fy : Bool) (yr : ℤ)
      (vals : List (String × ℚ)) (tot : ℚ),
      (yr, vals, tot) ∈ _aggregate_by_year sm fy →
        vals.map Prod.fst = sm.map Prod.fst ∧
        vals = sm.map (fun ks => (ks.1,
          (((unionIdx sm).filter fun t => yearLabel fy t == yr).map (lookup0 ks.2)).sum)) ∧
        tot = (vals.map Prod.snd).sum) ∧
    aggregate_cy netIntExample =
      [(2019, [("NetInt", 54)], 54), (2020, [("NetInt", 54)], 54)] ∧
    aggregate_fy netIntExample = [(2020, [("NetInt", 108)], 108)] := by
  have hcy : aggregate_cy netIntExample =
      [(2019, [("NetInt", 54)], 54), (2020, [("NetInt", 54)], 54)] := by
    simp only [aggregate_cy, _aggregate_by_year]
    rw [show unionIdx netIntExample = [(24237 : ℤ), 24238, 24239, 24240, 24241, 24242]
      from by decide]
    rw [show (([(24237 : ℤ), 24238, 24239, 24240, 24241, 24242]).map (yearLabel false)).dedup =
      [(2019 : ℤ), 2020] from by decide]
    norm_num [lookup0, netIntExample, yearLabel, List.filter,
      (by decide : ((2020 : ℤ) == 2019) = false),
      (by decide : ((2019 : ℤ) == 2020) = false)]
  have hfy : aggregate_fy netIntExample = [(2020, [("NetInt", 108)], 108)] := by
    simp only [aggregate_fy, _aggregate_by_year]
    rw [show unionIdx netIntExample = [(24237 : ℤ), 24238, 24239, 24240, 24241, 24242]
      from by decide]
    rw [show (([(24237 : ℤ), 24238, 24239, 24240, 24241, 24242]).map (yearLabel true)).dedup =
      [(2020 : ℤ)] from by decide]
    norm_num [lookup0, netIntExample, yearLabel, List.filter]
  refine ⟨?_, hcy, hfy⟩
  intro sm fy yr vals tot hmem
  simp only [_aggregate_by_year, List.mem_map] at hmem
  obtain ⟨y2, hy2, heq⟩ := hmem
  obtain ⟨h1, h2, h3⟩ : y2 = yr ∧ (sm.map fun ks => (ks.1,
      (((unionIdx sm).filter fun t => yearLabel fy t == y2).map (lookup0 ks.2)).sum)) = vals ∧
      ((sm.map fun ks => (ks.1,
        (((unionIdx sm).filter fun t => yearLabel fy t == y2).map (lookup0 ks.2)).sum)).map
          Prod.snd).sum = tot := by
    simpa using heq
  subst h1
  refine ⟨?_, h2.symm, ?_⟩
  · rw [← h2]
    simp
  · rw [← h3, ← h2]

theorem aggregate_by_year_spec_witness :
    ∃ (vals : List (String × ℚ)) (tot : ℚ),
      ((2020 : ℤ), vals, tot) ∈ aggregate_fy netIntExample ∧
      vals.map Prod.fst = netIntExample.map Prod.fst ∧
      tot = (vals.map Prod.snd).sum := by
  have hfy := aggregate_by_year_spec.2.2
  have hmem : ((2020 : ℤ), [("NetInt", (108 : ℚ))], (108 : ℚ)) ∈ aggregate_fy netIntExample := by
    rw [hfy]
    simp
  have h := aggregate_by_year_spec.1 netIntExample true 2020 [("NetInt", 108)] 108 hmem
  exact ⟨[("NetInt", 108)], 108, hmem, h.1, h.2.2⟩

end InterestModel
